import Mathlib

/-!
# Go-Schwab: verification development

A shallow embedding of the `schwab` Go package (`client.go`, `auth.go`,
`api.go`, `models.go`) and theorems about its account reader and its
two-phase trade engine.

Conventions of the embedding.

* A Go `string` that holds text is represented by a Lean `String`.  Where
  the code measures or cuts a string by bytes (`len(msg)`, `msg[:500]`) the
  string is taken as the bytes of its UTF-8 encoding (`goBytes`), and a
  string built from such a cut is a byte sequence (`Bytes`).
* A Go `map[K]T` is an association list with at most one entry per key;
  `m[k] = v` is `Map.set`, `v, ok := m[k]` is `Map.get`.  A `range` over a
  map visits the entries in list order (Go leaves the order unspecified).
  The `Headers` of a client are a non-nil map, as `NewClient` makes them.
* A function with several results returns a tuple; a nil slice, map or
  error is `none`.  A method of `*Client` takes the state before the call
  and returns the state after it.
* The HTTP transport (`c.HttpClient.Do`), the JSON decoding of response
  bodies into the structs of `models.go` and `fmt.Sprintf("%f", _)` are
  library code: they are the fields of `Env`.  The transport may answer
  differently on each call: it sees the requests handed to it so far.
* Every request handed to `HttpClient.Do` is appended to `World.sent`.
* `strconv.ParseInt`, `strconv.FormatInt` and the behaviour of
  `encoding/json` on the value handed to `flexString.UnmarshalJSON` are
  written out from the documentation of the Go standard library.
* `log.Printf` output is not part of the state.
-/

namespace Schwab

/-! ## Go maps -/

/-- A Go map with keys `κ` and values `α`, as an association list. -/
abbrev Map (κ : Type) (α : Type) := List (κ × α)

/-- The Go expression `v, ok := m[k]`. -/
def Map.get {κ α : Type} [DecidableEq κ] : Map κ α → κ → Option α
  | [], _ => none
  | (k, v) :: m, q => if k = q then some v else Map.get m q

/-- The Go statement `m[k] = v`: an existing entry is overwritten in place,
a new one is added. -/
def Map.set {κ α : Type} [DecidableEq κ] : Map κ α → κ → α → Map κ α
  | [], q, x => [(q, x)]
  | (k, v) :: m, q, x => if k = q then (k, x) :: m else (k, v) :: Map.set m q x

/-! ## Endpoints (`endpoints.go`) -/

def OrderVerificationV2Url : String :=
  "https://ausgateway.schwab.com/api/is.TradeOrderManagementWeb/v1/TradeOrderManagementWebPort/orders"

def PositionsV2Url : String :=
  "https://ausgateway.schwab.com/api/is.Holdings/V1/Holdings/HoldingV2"

/-! ## Request bodies: `map[string]interface{}` values -/

/-- The dynamic values that `Trade` stores in its request body. -/
inductive Val where
  | str : String → Val
  | int : Int → Val
  | bool : Bool → Val
  | obj : List (String × Val) → Val
  | objs : List (List (String × Val)) → Val

/-- One step into a request body: a map key or a slice index. -/
inductive Key where
  | field : String → Key
  | index : Nat → Key
  deriving DecidableEq

/-- Read the value under a path of keys and indices. -/
def Val.get : Val → List Key → Option Val
  | v, [] => some v
  | .obj m, .field k :: p =>
    match Map.get m k with
    | some v => Val.get v p
    | none => none
  | .objs l, .index i :: p =>
    match l[i]? with
    | some m => Val.get (.obj m) p
    | none => none
  | _, _ => none

/-- Write a value under a path of keys and indices: the Go assignment
`body[k1]...[kn] = x`, where every step but the last reads a map or slice
that is already stored (Go maps and slices are shared by reference, so the
assignment is seen through the enclosing request body).  Where Go would
stop on a failed type assertion the value is left as it is; `Trade` never
gets there. -/
def Val.set : Val → List Key → Val → Val
  | _, [], x => x
  | .obj m, [.field k], x => .obj (Map.set m k x)
  | .obj m, .field k :: k2 :: p, x =>
    match Map.get m k with
    | some v => .obj (Map.set m k (Val.set v (k2 :: p) x))
    | none => .obj m
  | .objs l, .index i :: p, x =>
    match l[i]? with
    | some m =>
      match Val.set (.obj m) p x with
      | .obj m2 => .objs (l.set i m2)
      | _ => .objs l
    | none => .objs l
  | v, _ :: _, _ => v

/-- A value that is a string, an integer or a boolean: a leaf of a request
body. -/
def Val.isScalar : Val → Bool
  | .str _ => true
  | .int _ => true
  | .bool _ => true
  | _ => false

/-! ## The client (`client.go`) -/

/-- A float64, given by its IEEE-754 bit pattern.  The code under study only
stores and copies such values. -/
structure Float64 where
  bits : Nat
  deriving DecidableEq

/-- The fields of `Client` other than the transport `HttpClient`. -/
structure Client where
  Headers : Map String String
  BearerToken : String
  Debug : Bool
  AccountIDs : List String
  deriving DecidableEq

/-- `NewClient(debug)`. -/
def NewClient (debug : Bool) : Client :=
  { Headers := [], BearerToken := "", Debug := debug, AccountIDs := [] }

/-- An outgoing HTTP request: method, URL, the calls `req.Header.Set(k, v)`
made on it in order, and the value marshalled into its body (if any). -/
structure Request where
  method : String
  url : String
  header : List (String × String)
  body : Option Val

/-- What the code reads of an HTTP response: the status code and the bytes
returned by `io.ReadAll(resp.Body)`. -/
structure Response where
  StatusCode : Int
  Body : String
  deriving DecidableEq

/-! ## Response models (`models.go`) -/

structure OrderMessage where
  Message : String
  deriving DecidableEq

structure OrderLeg where
  SchwabSecurityId : Int
  deriving DecidableEq

structure OrderStrategy where
  OrderId : Int
  OrderMessages : List OrderMessage
  OrderReturnCode : Int
  OrderLegs : List OrderLeg
  deriving DecidableEq

structure OrderVerificationResponse where
  OrderStrategy : OrderStrategy
  deriving DecidableEq

structure AccountTotals where
  MarketValue : Float64
  CashInvestments : Float64
  AccountValue : Float64
  CostBasis : Float64
  deriving DecidableEq

structure SymbolInfo where
  Symbol : String
  SSID : Int
  deriving DecidableEq

structure QtyInfo where
  Qty : Float64
  deriving DecidableEq

structure CostBasisInfo where
  CostBasis : Float64
  deriving DecidableEq

structure MarketValInfo where
  Val : Float64
  deriving DecidableEq

structure HoldingRow where
  Symbol : SymbolInfo
  Description : String
  Qty : QtyInfo
  CostBasis : CostBasisInfo
  MarketValue : MarketValInfo
  deriving DecidableEq

structure GroupedPosition where
  GroupName : String
  HoldingsRows : List HoldingRow
  deriving DecidableEq

structure AccountV2 where
  AccountID : String
  Totals : AccountTotals
  GroupedPositions : List GroupedPosition
  deriving DecidableEq

structure AccountInfoV2Response where
  Accounts : List AccountV2
  deriving DecidableEq

structure PositionRow where
  Symbol : String
  MarketValue : Float64
  Quantity : Float64
  deriving DecidableEq

structure AccountInfoV2Compat where
  AccountValue : Float64
  Positions : List PositionRow
  deriving DecidableEq

/-! ## Library code the package calls -/

/-- The library calls whose results the package consumes.

* `Do past req` is `c.HttpClient.Do(req)` when the requests `past` have been
  handed to the transport before: a transport error or a response.
* `decodeToken`, `decodeOrder`, `decodeAccounts` are `encoding/json` decoding
  a body into a zero value of the target struct: the struct as the decoder
  leaves it, and the decoder's error if any.
* `fmtFloat q` is `fmt.Sprintf("%f", q)`. -/
structure Env where
  Do : List Request → Request → Except String Response
  decodeToken : String → String × Option String
  decodeOrder : String → OrderVerificationResponse × Option String
  decodeAccounts : String → AccountInfoV2Response × Option String
  fmtFloat : Float64 → String

/-- The mutable state a call works on: the client's fields and the requests
handed to the transport so far, oldest first. -/
structure World where
  client : Client
  sent : List Request

/-- Hand a request to the transport. -/
def World.send (w : World) (req : Request) : World :=
  { w with sent := w.sent ++ [req] }

/-! ## Token refresh (`auth.go`) -/

/-- The request built by `UpdateToken`: a GET carrying the credential
headers. -/
def tokenRequest (c : Client) (tokenType : String) : Request :=
  { method := "GET"
    url := "https://client.schwab.com/api/auth/authorize/scope/" ++ tokenType
    header := c.Headers
    body := none }

/-- `(c *Client) UpdateToken(tokenType)`: the returned error and the state
after the call.  (`http.NewRequest` does not fail on the scopes `"api"` and
`"update"` the package passes.) -/
def UpdateToken (env : Env) (w : World) (tokenType : String) : Option String × World :=
  let req := tokenRequest w.client tokenType
  match env.Do w.sent req with
  | .error e => (some e, w.send req)
  | .ok resp =>
    if resp.StatusCode ≠ 200 then
      (some ("failed to update token, status: " ++ toString resp.StatusCode), w.send req)
    else
      match env.decodeToken resp.Body with
      | (_, some e) => (some e, w.send req)
      | (token, none) =>
        let bearer := "Bearer " ++ token
        (none,
          { client := { w.client with
                        BearerToken := bearer
                        Headers := Map.set w.client.Headers "Authorization" bearer }
            sent := w.sent ++ [req] })

/-! ## The trade engine (`api.go`) -/

/-- What `Trade` returns: the messages (`none` is a nil slice), the success
flag and the error (`none` is nil). -/
structure TradeResult where
  messages : Option (List String)
  success : Bool
  err : Option String
  deriving DecidableEq

/-- The map literal `requestBody` of `Trade`. -/
def verificationBody (env : Env) (ticker buySellCode : String) (qty : Float64)
    (accountId : String) : Val :=
  .obj [
    ("UserContext", .obj [
      ("AccountId", .str accountId),
      ("AccountColor", .int 0)]),
    ("OrderStrategy", .obj [
      ("PrimarySecurityType", .int 46),
      ("CostBasisRequest", .obj [
        ("costBasisMethod", .str "FIFO"),
        ("defaultCostBasisMethod", .str "FIFO")]),
      ("OrderType", .str "49"),
      ("LimitPrice", .str "0"),
      ("StopPrice", .str "0"),
      ("Duration", .str "48"),
      ("AllNoneIn", .bool false),
      ("DoNotReduceIn", .bool false),
      ("OrderStrategyType", .int 1),
      ("OrderLegs", .objs [[
        ("Quantity", .str (env.fmtFloat qty)),
        ("LeavesQuantity", .str (env.fmtFloat qty)),
        ("Instrument", .obj [("Symbol", .str ticker)]),
        ("SecurityType", .int 46),
        ("Instruction", .str buySellCode)]])]),
    ("OrderProcessingControl", .int 1)]

/-- The POST that `Trade` builds for a body: the credential headers, then the
two required headers. -/
def orderRequest (c : Client) (body : Val) : Request :=
  { method := "POST"
    url := OrderVerificationV2Url
    header := c.Headers ++
      [("schwab-resource-version", "1.0"), ("Content-Type", "application/json")]
    body := some body }

/-- The lookup `validCodes[code]` in `map[int]bool{0: true, 10: true}`. -/
def validCodes (code : Int) : Bool :=
  code = 0 || code = 10

/-- The loop collecting `msg.Message` over `OrderStrategy.OrderMessages`. -/
def orderMessages (r : OrderVerificationResponse) : List String :=
  r.OrderStrategy.OrderMessages.map fun msg => msg.Message

/-- The path of the leg instrument's `ItemIssueId` in the request body. -/
def itemIssueIdPath : List Key :=
  [.field "OrderStrategy", .field "OrderLegs", .index 0, .field "Instrument",
    .field "ItemIssueId"]

/-- The request body after the updates `Trade` makes to it between the two
phases, in source order. -/
def executionBody (requestBody : Val) (verifyResp : OrderVerificationResponse) : Val :=
  let orderId := verifyResp.OrderStrategy.OrderId
  let b1 :=
    match verifyResp.OrderStrategy.OrderLegs with
    | leg :: _ => requestBody.set itemIssueIdPath (.int leg.SchwabSecurityId)
    | [] => requestBody
  let b2 := b1.set [.field "UserContext", .field "CustomerId"] (.int 0)
  let b3 := b2.set [.field "OrderStrategy", .field "OrderId"] (.int orderId)
  b3.set [.field "OrderProcessingControl"] (.int 2)

/-- `(c *Client) Trade(ticker, side, qty, accountId, dryRun)`: the returned
triple and the state after the call.  (`json.Marshal` does not fail on the
request body, nor `http.NewRequest` on the order URL.) -/
def Trade (env : Env) (w : World) (ticker side : String) (qty : Float64)
    (accountId : String) (dryRun : Bool) : TradeResult × World :=
  if side ≠ "Buy" ∧ side ≠ "Sell" then
    ({ messages := none, success := false,
       err := some "side must be \x27Buy\x27 or \x27Sell\x27" }, w)
  else
    let buySellCode := if side = "Sell" then "50" else "49"
    let w1 := (UpdateToken env w "update").2
    let requestBody := verificationBody env ticker buySellCode qty accountId
    let req := orderRequest w1.client requestBody
    let w2 := w1.send req
    match env.Do w1.sent req with
    | .error e => ({ messages := none, success := false, err := some e }, w2)
    | .ok resp =>
      if resp.StatusCode ≠ 200 then
        ({ messages := some [resp.Body], success := false, err := none }, w2)
      else
        match env.decodeOrder resp.Body with
        | (_, some e) => ({ messages := none, success := false, err := some e }, w2)
        | (verifyResp, none) =>
          let messages := orderMessages verifyResp
          if ¬ validCodes verifyResp.OrderStrategy.OrderReturnCode then
            ({ messages := some messages, success := false, err := none }, w2)
          else if dryRun then
            ({ messages := some messages, success := true, err := none }, w2)
          else
            let execBody := executionBody requestBody verifyResp
            let w3 := (UpdateToken env w2 "update").2
            let reqExec := orderRequest w3.client execBody
            let w4 := w3.send reqExec
            match env.Do w3.sent reqExec with
            | .error e => ({ messages := none, success := false, err := some e }, w4)
            | .ok respExec =>
              let execResp := (env.decodeOrder respExec.Body).1
              let execMessages := orderMessages execResp
              if validCodes execResp.OrderStrategy.OrderReturnCode then
                ({ messages := some execMessages, success := true, err := none }, w4)
              else
                ({ messages := some execMessages, success := false, err := none }, w4)

/-! ### The intermediate values of a `Trade` call with a valid side -/

/-- The instruction code `Trade` derives from the side. -/
def buySellCode (side : String) : String :=
  if side = "Sell" then "50" else "49"

/-- The state after the refresh that opens `Trade`. -/
def tradeStart (env : Env) (w : World) : World :=
  (UpdateToken env w "update").2

/-- The verification POST. -/
def verifyRequest (env : Env) (w : World) (ticker side : String) (qty : Float64)
    (accountId : String) : Request :=
  orderRequest (tradeStart env w).client
    (verificationBody env ticker (buySellCode side) qty accountId)

/-- The transport's answer to the verification POST. -/
def verifyAnswer (env : Env) (w : World) (ticker side : String) (qty : Float64)
    (accountId : String) : Except String Response :=
  env.Do (tradeStart env w).sent (verifyRequest env w ticker side qty accountId)

/-- The state once the verification POST has been handed to the transport. -/
def verified (env : Env) (w : World) (ticker side : String) (qty : Float64)
    (accountId : String) : World :=
  (tradeStart env w).send (verifyRequest env w ticker side qty accountId)

/-- The state after the refresh that precedes the execution POST. -/
def execStart (env : Env) (w : World) (ticker side : String) (qty : Float64)
    (accountId : String) : World :=
  (UpdateToken env (verified env w ticker side qty accountId) "update").2

/-- The execution POST that follows the verification response `verifyResp`. -/
def execRequest (env : Env) (w : World) (ticker side : String) (qty : Float64)
    (accountId : String) (verifyResp : OrderVerificationResponse) : Request :=
  orderRequest (execStart env w ticker side qty accountId).client
    (executionBody (verificationBody env ticker (buySellCode side) qty accountId) verifyResp)

/-- The transport's answer to the execution POST. -/
def execAnswer (env : Env) (w : World) (ticker side : String) (qty : Float64)
    (accountId : String) (verifyResp : OrderVerificationResponse) : Except String Response :=
  env.Do (execStart env w ticker side qty accountId).sent
    (execRequest env w ticker side qty accountId verifyResp)

/-- The POSTs to the order endpoint among a list of requests. -/
def orderPosts (l : List Request) : List Request :=
  l.filter fun r => r.method = "POST" ∧ r.url = OrderVerificationV2Url

/-- The paths that `Trade` assigns between the two phases. -/
def changedPaths : List (List Key) :=
  [itemIssueIdPath, [.field "UserContext", .field "CustomerId"],
    [.field "OrderStrategy", .field "OrderId"], [.field "OrderProcessingControl"]]

/-- The verification body with the order id `o` and the customer id added,
the security id `s` added to the leg instrument and the processing control
set to 2, written out in full. -/
def executionLiteral (env : Env) (ticker buySellCode : String) (qty : Float64)
    (accountId : String) (o s : Int) : Val :=
  .obj [
    ("UserContext", .obj [
      ("AccountId", .str accountId),
      ("AccountColor", .int 0),
      ("CustomerId", .int 0)]),
    ("OrderStrategy", .obj [
      ("PrimarySecurityType", .int 46),
      ("CostBasisRequest", .obj [
        ("costBasisMethod", .str "FIFO"),
        ("defaultCostBasisMethod", .str "FIFO")]),
      ("OrderType", .str "49"),
      ("LimitPrice", .str "0"),
      ("StopPrice", .str "0"),
      ("Duration", .str "48"),
      ("AllNoneIn", .bool false),
      ("DoNotReduceIn", .bool false),
      ("OrderStrategyType", .int 1),
      ("OrderLegs", .objs [[
        ("Quantity", .str (env.fmtFloat qty)),
        ("LeavesQuantity", .str (env.fmtFloat qty)),
        ("Instrument", .obj [("Symbol", .str ticker), ("ItemIssueId", .int s)]),
        ("SecurityType", .int 46),
        ("Instruction", .str buySellCode)]]),
      ("OrderId", .int o)]),
    ("OrderProcessingControl", .int 2)]

/-- `(c *Client) TradeV2`: the same as `Trade`. -/
def TradeV2 (env : Env) (w : World) (ticker side : String) (qty : Float64)
    (accountId : String) (dryRun : Bool) : TradeResult × World :=
  Trade env w ticker side qty accountId dryRun


/-! ## Library code: `strconv` -/

/-- The two kinds of error of `strconv.ParseInt`. -/
inductive NumError where
  | ErrSyntax
  | ErrRange
  deriving DecidableEq

/-- The digit loop of `strconv.ParseUint(s, 10, 64)` on the remaining bytes,
`n` being the value read so far: any byte that is not a decimal digit is a
syntax error with value 0; a value that leaves the uint64 range is a range
error with value `2^64 - 1`, returned at once. -/
def ParseUintLoop : List Char → Nat → Nat × Option NumError
  | [], n => (n, none)
  | c :: cs, n =>
    if 48 ≤ c.toNat ∧ c.toNat ≤ 57 then
      if n ≥ (2 ^ 64 - 1) / 10 + 1 then (2 ^ 64 - 1, some .ErrRange)
      else if n * 10 + (c.toNat - 48) > 2 ^ 64 - 1 then (2 ^ 64 - 1, some .ErrRange)
      else ParseUintLoop cs (n * 10 + (c.toNat - 48))
    else (0, some .ErrSyntax)

/-- `strconv.ParseUint(s, 10, 64)`. -/
def ParseUint (s : List Char) : Nat × Option NumError :=
  match s with
  | [] => (0, some .ErrSyntax)
  | _ :: _ => ParseUintLoop s 0

/-- `strconv.ParseInt(s, 10, 64)`: the value returned and the error.  A
syntax error comes with 0, a range error with the nearest int64. -/
def ParseInt (s : String) : Int × Option NumError :=
  match s.data with
  | [] => (0, some .ErrSyntax)
  | c :: cs =>
    let neg : Bool := c = '-'
    let digits := if c = '+' ∨ c = '-' then cs else c :: cs
    match ParseUint digits with
    | (_, some .ErrSyntax) => (0, some .ErrSyntax)
    | (un, _) =>
      if neg = false ∧ un ≥ 2 ^ 63 then (2 ^ 63 - 1, some .ErrRange)
      else if neg = true ∧ un > 2 ^ 63 then (-(2 ^ 63), some .ErrRange)
      else (if neg then -(un : Int) else (un : Int), none)

/-- `strconv.FormatInt(i, 10)`. -/
def FormatInt (i : Int) : String :=
  match i with
  | .ofNat n => String.mk (Nat.toDigits 10 n)
  | .negSucc n => String.mk ('-' :: Nat.toDigits 10 (n + 1))

/-- The number written by a string of decimal digits. -/
def digitsValue (l : List Char) : Nat :=
  l.foldl (fun acc c => acc * 10 + (c.toNat - 48)) 0

/-! ## The account reader (`api.go`) -/

/-- The client after `GetAccountInfo` has set the `Schwab-Client-Ids`
header: from the `schwab-client-account` header when there is one, else from
the first configured account id when there is one. -/
def withClientIds (c : Client) : Client :=
  match Map.get c.Headers "schwab-client-account" with
  | some acc => { c with Headers := Map.set c.Headers "Schwab-Client-Ids" acc }
  | none =>
    match c.AccountIDs with
    | id :: _ => { c with Headers := Map.set c.Headers "Schwab-Client-Ids" id }
    | [] => c

/-- The positions GET. -/
def positionsRequest (c : Client) : Request :=
  { method := "GET", url := PositionsV2Url, header := c.Headers, body := none }

/-- A Go string as the bytes it holds, each a number below 256. -/
abbrev Bytes := List Nat

/-- The UTF-8 encoding of a character: one to four bytes. -/
def utf8Char (c : Char) : Bytes :=
  if c.toNat < 128 then [c.toNat]
  else if c.toNat < 2048 then [192 + c.toNat / 64, 128 + c.toNat % 64]
  else if c.toNat < 65536 then
    [224 + c.toNat / 4096, 128 + c.toNat / 64 % 64, 128 + c.toNat % 64]
  else
    [240 + c.toNat / 262144, 128 + c.toNat / 4096 % 64, 128 + c.toNat / 64 % 64,
      128 + c.toNat % 64]

/-- The bytes of the Go string that holds a text. -/
def goBytes (s : String) : Bytes :=
  s.data.flatMap utf8Char

/-- The message cut `GetAccountInfo` makes of a response body: the body when
`len(msg)` is at most 500, else `msg[:500] + "..."`, its first 500 bytes
followed by three dots. -/
def truncatedBody (msg : Bytes) : Bytes :=
  if msg.length > 500 then msg.take 500 ++ goBytes "..." else msg

/-- The loop of `GetAccountInfo` that files the decoded accounts under their
parsed ids, the parse error being dropped. -/
def accountsById (accounts : List AccountV2) : Map Int AccountV2 :=
  accounts.foldl (fun m acc => Map.set m (ParseInt acc.AccountID).1 acc) []

/-- `(c *Client) GetAccountInfo()`: the returned map (`none` is nil) and
error (the bytes of its text; `none` is nil), and the state after the call.
(`http.NewRequest` does not fail on the positions URL.) -/
def GetAccountInfo (env : Env) (w : World) :
    (Option (Map Int AccountV2) × Option Bytes) × World :=
  let w1 := (UpdateToken env w "api").2
  let w2 : World := { w1 with client := withClientIds w1.client }
  let req := positionsRequest w2.client
  let w3 := w2.send req
  match env.Do w2.sent req with
  | .error e => ((none, some (goBytes e)), w3)
  | .ok resp =>
    if resp.StatusCode ≠ 200 then
      ((none, some (goBytes ("API request failed with status: " ++ toString resp.StatusCode ++
        ": ") ++ truncatedBody (goBytes resp.Body))), w3)
    else
      match env.decodeAccounts resp.Body with
      | (_, some e) => ((none, some (goBytes e)), w3)
      | (data, none) => ((some (accountsById data.Accounts), none), w3)

/-- The state in which `GetAccountInfo` sends the positions GET: after the
refresh and the setting of the account header. -/
def positionsStart (env : Env) (w : World) : World :=
  { (UpdateToken env w "api").2 with
    client := withClientIds (UpdateToken env w "api").2.client }

/-- The transport's answer to the positions GET. -/
def positionsAnswer (env : Env) (w : World) : Except String Response :=
  env.Do (positionsStart env w).sent (positionsRequest (positionsStart env w).client)

/-- The `PositionRow` that `GetAccountInfoV2` makes of a holdings row. -/
def positionRow (row : HoldingRow) : PositionRow :=
  { Symbol := row.Symbol.Symbol, MarketValue := row.MarketValue.Val, Quantity := row.Qty.Qty }

/-- The legacy shape of one account as the loops of `GetAccountInfoV2` build
it: the account value, and the rows appended one by one, group after
group. -/
def compatOf (acc : AccountV2) : AccountInfoV2Compat :=
  { AccountValue := acc.Totals.AccountValue
    Positions := acc.GroupedPositions.foldl
      (fun positions group =>
        group.HoldingsRows.foldl (fun positions row => positions ++ [positionRow row]) positions)
      [] }

/-- The loop of `GetAccountInfoV2` over the entries of the account map, in
the order the range statement hands them out (the list order here; Go leaves
it unspecified). -/
def compatById (raw : Map Int AccountV2) : Map String AccountInfoV2Compat :=
  raw.foldl (fun out entry => Map.set out (FormatInt entry.1) (compatOf entry.2)) []

/-- `(c *Client) GetAccountInfoV2()`. -/
def GetAccountInfoV2 (env : Env) (w : World) :
    (Option (Map String AccountInfoV2Compat) × Option Bytes) × World :=
  match GetAccountInfo env w with
  | ((_, some err), w1) => ((none, some err), w1)
  | ((raw, none), w1) => ((some (compatById (raw.getD [])), none), w1)

/-! ## Library code: the header of an `http.Request` -/

/-- The bytes `net/textproto` accepts in a header name: letters, digits and
the fifteen token punctuation marks. -/
def validHeaderFieldByte (c : Char) : Bool :=
  (48 ≤ c.toNat ∧ c.toNat ≤ 57) ∨ (65 ≤ c.toNat ∧ c.toNat ≤ 90) ∨
    (97 ≤ c.toNat ∧ c.toNat ≤ 122) ∨
    c.toNat ∈ [33, 35, 36, 37, 38, 39, 42, 43, 45, 46, 94, 95, 96, 124, 126]

/-- The rewriting loop of `textproto.CanonicalMIMEHeaderKey`: a letter is
made upper case at the start and after a dash, lower case elsewhere. -/
def canonicalLoop : Bool → List Char → List Char
  | _, [] => []
  | upper, c :: cs =>
    if upper = true ∧ 97 ≤ c.toNat ∧ c.toNat ≤ 122 then
      Char.ofNat (c.toNat - 32) :: canonicalLoop false cs
    else if upper = false ∧ 65 ≤ c.toNat ∧ c.toNat ≤ 90 then
      Char.ofNat (c.toNat + 32) :: canonicalLoop false cs
    else c :: canonicalLoop (c.toNat = 45) cs

/-- `textproto.CanonicalMIMEHeaderKey(s)`: a name with a byte that is not
accepted in header names is returned as it is. -/
def CanonicalMIMEHeaderKey (s : String) : String :=
  if s.data.all validHeaderFieldByte then String.mk (canonicalLoop true s.data) else s

/-- The `http.Header` of a request after the calls `req.Header.Set(k, v)`
made on it: each call files the value under the canonical form of the
name, replacing what was there. -/
def Request.headerMap (req : Request) : Map String String :=
  req.header.foldl (fun h kv => Map.set h (CanonicalMIMEHeaderKey kv.1) kv.2) []

/-- The value a request carries under a header name; `none` when it carries
no header of that name. -/
def Request.headerValue (req : Request) (name : String) : Option String :=
  Map.get req.headerMap (CanonicalMIMEHeaderKey name)

/-- A header map in which no name other than Schwab-Client-Ids itself has
Schwab-Client-Ids as its canonical form, and no name occurs twice. -/
def cleanClientIds (h : Map String String) : Prop :=
  (h.map Prod.fst).Nodup ∧
    ∀ k ∈ h.map Prod.fst, CanonicalMIMEHeaderKey k = "Schwab-Client-Ids" →
      k = "Schwab-Client-Ids"

/-! ## The login flow (`auth.go`) -/

/-- What the one-time-code generator and the browser driver do during one
run of `Login`: for each call in source order its error (`none` when it
succeeds), for the header channel the headers it delivers within the 60
seconds (`none` when the wait times out), and for each URL the cookies the
browser context holds for it (name and value). -/
structure Browser where
  generateCode : String → Except String String
  run : Option String
  launch : Option String
  newContext : Option String
  newPage : Option String
  route : Option String
  goto : Option String
  waitForLoginFrame : Option String
  selectOption : Option String
  fillLoginID : String → Option String
  pressTab : Option String
  fillPassword : String → Option String
  pressEnter : Option String
  reload : Option String
  captured : Option (Map String String)
  waitForURL : Option String
  waitForSymbol : Option String
  reloadTrade : Option String
  waitForSymbolAgain : Option String
  cookies : String → Except String (List (String × String))

/-- The error with which a run of steps returns: the first error, wrapped
as `fmt.Errorf("<what>: %w", err)` wraps it. -/
def firstError : List (Option String × String) → Option String
  | [] => none
  | (some e, what) :: _ => some (what ++ ": " ++ e)
  | (none, _) :: rest => firstError rest

/-- The URLs whose cookies `Login` collects. -/
def cookieUrls : List String :=
  ["https://www.schwab.com", "https://client.schwab.com", "https://ausgateway.schwab.com"]

/-- The map `byName` of `Login`: the cookies of the three URLs by name, a
URL whose cookies cannot be read being skipped. -/
def cookiesByName (br : Browser) : Map String String :=
  cookieUrls.foldl
    (fun byName u =>
      match br.cookies u with
      | .error _ => byName
      | .ok cookies => cookies.foldl (fun m k => Map.set m k.1 k.2) byName)
    []

/-- The string `cookiesStr` of `Login`: the pairs name=value joined by a
semicolon and a blank. -/
def cookieString (byName : Map String String) : String :=
  "; ".intercalate (byName.map fun nv => nv.1 ++ "=" ++ nv.2)

/-- `(c *Client) Login(username, password, totpSecret)`: the returned error
and the state after the call.  The browser traffic does not go through
`c.HttpClient`. -/
def Login (br : Browser) (w : World) (username password totpSecret : String) :
    Option String × World :=
  match (if totpSecret ≠ "" then br.generateCode totpSecret else .ok "") with
  | .error e => (some ("failed to generate TOTP code: " ++ e), w)
  | .ok code =>
    let fullPassword := password ++ code
    match firstError [
        (br.run, "failed to start Playwright"),
        (br.launch, "failed to launch browser"),
        (br.newContext, "failed to create context"),
        (br.newPage, "failed to create page"),
        (br.route, "failed to set route"),
        (br.goto, "failed to navigate to login page"),
        (br.waitForLoginFrame, "failed to wait for login iframe"),
        (br.selectOption, "failed to select Trade"),
        (br.fillLoginID username, "failed to fill login ID"),
        (br.pressTab, "failed to tab to password"),
        (br.fillPassword fullPassword, "failed to fill password"),
        (br.pressEnter, "failed to submit login"),
        (br.reload, "refresh after login")] with
    | some err => (some err, w)
    | none =>
      match br.captured with
      | none => (some "timed out waiting for authorization header", w)
      | some capturedHeaders =>
        let bearer := (Map.get capturedHeaders "authorization").getD ""
        let w1 : World := { w with client := { w.client with BearerToken := bearer } }
        match firstError [
            (br.waitForURL, "wait for trade URL"),
            (br.waitForSymbol, "wait for trade page"),
            (br.reloadTrade, "refresh trade page"),
            (br.waitForSymbolAgain, "wait for trade page after refresh")] with
        | some err => (some err, w1)
        | none =>
          let cookiesStr := cookieString (cookiesByName br)
          if cookiesStr = "" then
            (some "no session cookies captured for Schwab domains", w1)
          else
            let headers := capturedHeaders.foldl (fun h kv => Map.set h kv.1 kv.2) []
            (none,
              { w1 with
                client := { w1.client with
                  Headers := Map.set (Map.set headers "Authorization" bearer)
                    "Cookie" cookiesStr } })

/-- The invariant of the credential bundle: the Go expression
`c.Headers["Authorization"] == c.BearerToken` (a missing header reads as
the empty string). -/
def credentialsAgree (c : Client) : Prop :=
  (Map.get c.Headers "Authorization").getD "" = c.BearerToken

/-- Whether the credentials agree can be computed. -/
instance credentialsAgreeDecidable (c : Client) : Decidable (credentialsAgree c) :=
  inferInstanceAs (Decidable ((Map.get c.Headers "Authorization").getD "" = c.BearerToken))

/-! ## The description decoder (`models.go`) -/

/-- A JSON number literal, by its value: sign, decimal significand and
decimal exponent (`1e999` is `false, 1, 999`; `-2.5` is `true, 25, -1`). -/
structure JNumber where
  neg : Bool
  mant : Nat
  exp : Int
  deriving DecidableEq

/-- A valid JSON text, by its structure; strings hold their decoded content
and objects their members in source order. -/
inductive JSON where
  | null : JSON
  | bool : Bool → JSON
  | num : JNumber → JSON
  | str : String → JSON
  | arr : List JSON → JSON
  | obj : List (String × JSON) → JSON

/-- The least magnitude that `strconv.ParseFloat(_, 64)` rounds to infinity:
`2^1024 - 2^970`, half a unit in the last place above the largest float64. -/
def float64Limit : Nat := (2 ^ 54 - 1) * (2 ^ 194) ^ 5

/-- Whether `strconv.ParseFloat(_, 64)` reports a range error on the
literal, which is how `encoding/json` decodes a number into an
`interface{}`. -/
def JNumber.overflows (n : JNumber) : Bool :=
  match n.exp with
  | .ofNat e => decide (float64Limit ≤ n.mant * 10 ^ e)
  | .negSucc e => decide (float64Limit * 10 ^ (e + 1) ≤ n.mant)

mutual
/-- Whether decoding the value into an `interface{}` records an error: it
holds a number literal outside the float64 range. -/
def JSON.rangeError : JSON → Bool
  | .num n => n.overflows
  | .arr xs => JSON.rangeErrorList xs
  | .obj ms => JSON.rangeErrorMembers ms
  | _ => false
/-- Whether decoding one of the elements records an error. -/
def JSON.rangeErrorList : List JSON → Bool
  | [] => false
  | x :: xs => x.rangeError || JSON.rangeErrorList xs
/-- Whether decoding one of the member values records an error. -/
def JSON.rangeErrorMembers : List (String × JSON) → Bool
  | [] => false
  | (_, x) :: ms => x.rangeError || JSON.rangeErrorMembers ms
end

/-- `json.Unmarshal(data, &str)` for an empty Go string `str`: the string
after the call and the error (its text abridged). -/
def unmarshalString : JSON → String × Option String
  | .str v => (v, none)
  | .null => ("", none)
  | _ => ("", some "json: cannot unmarshal into Go value of type string")

/-- `json.Unmarshal(data, &obj)` for a nil `map[string]interface{}`: the map
after the call, a later member overwriting an earlier one of the same name,
and the error (its text abridged).  The values are kept as JSON values: the
type assertion `v.(string)` succeeds on the strings. -/
def unmarshalObject : JSON → Map String JSON × Option String
  | .obj members =>
    (members.foldl (fun m kv => Map.set m kv.1 kv.2) [],
      if JSON.rangeErrorMembers members then
        some "json: cannot unmarshal number into Go value of type float64"
      else none)
  | .null => ([], none)
  | _ => ([], some "json: cannot unmarshal into Go value of type map")

/-- The type `flexString` of `models.go`. -/
abbrev flexString := String

/-- The loop of `UnmarshalJSON` over the keys: the first key that the map
holds with a string value gives the result. -/
def flexString.pick (obj : Map String JSON) : List String → Option String
  | [] => none
  | key :: keys =>
    match Map.get obj key with
    | some (.str str) => some str
    | _ => flexString.pick obj keys

/-- `(s *flexString) UnmarshalJSON(data)`: the value of `*s` after the call
and the returned error, `s` being the value before.  `data` is `none` for an
empty byte slice and else the JSON value whose text it is: `data[0]` is a
double quote exactly for a string and an opening brace exactly for an
object. -/
def flexString.UnmarshalJSON (s : flexString) (data : Option JSON) :
    flexString × Option String :=
  match data with
  | none => ("", none)
  | some (.str v) =>
    match unmarshalString (.str v) with
    | (_, some err) => (s, some err)
    | (str, none) => (str, none)
  | some (.obj members) =>
    match unmarshalObject (.obj members) with
    | (_, some err) => (s, some err)
    | (obj, none) =>
      match flexString.pick obj ["description", "text", "value"] with
      | some str => (str, none)
      | none => ("", none)
  | some _ => ("", none)

/-- The string value under which an object holds a key, if it holds the key
with a string value; of several members with that name the last counts. -/
def stringMember (members : List (String × JSON)) (key : String) : Option String :=
  match members.reverse.find? fun m => decide (m.1 = key) with
  | some (_, .str v) => some v
  | _ => none

/-- The description decoder as the specification words it: a string gives
itself, an object the string value of the first of description, text, value
that it holds with a string value, everything else the empty string. -/
def flexStringRef : JSON → String
  | .str v => v
  | .obj members =>
    ((stringMember members "description").or
      ((stringMember members "text").or (stringMember members "value"))).getD ""
  | _ => ""

/-- Whether the generic decoding inside `UnmarshalJSON` fails on the value:
it is an object that holds a number outside the float64 range. -/
def decodeFails : JSON → Bool
  | .obj members => JSON.rangeErrorMembers members
  | _ => false

/-! ## A scripted server, for running the model on concrete inputs -/

/-- The zero value of `OrderVerificationResponse`. -/
def zeroOrder : OrderVerificationResponse :=
  { OrderStrategy := { OrderId := 0, OrderMessages := [], OrderReturnCode := 0, OrderLegs := [] } }

/-- A scripted server: the n-th request handed to the transport gets the
n-th answer of the script (a connection error once the script is used up);
a body decodes to the struct listed for it, and does not decode when none
is listed. -/
def scriptEnv (answers : List (Except String Response))
    (orders : Map String OrderVerificationResponse)
    (accounts : Map String AccountInfoV2Response) : Env :=
  { Do := fun past _ => (answers.get? past.length).getD (.error "connection refused")
    decodeToken := fun b => if b = "" then ("", some "EOF") else (b, none)
    decodeOrder := fun b =>
      match Map.get orders b with
      | some r => (r, none)
      | none => (zeroOrder, some "invalid character")
    decodeAccounts := fun b =>
      match Map.get accounts b with
      | some r => (r, none)
      | none => ({ Accounts := [] }, some "invalid character")
    fmtFloat := fun _ => "1.000000" }

/-- A fresh client that has sent nothing yet. -/
def freshWorld : World :=
  { client := NewClient false, sent := [] }

/-- An order response with the given id, return code, messages and leg
security ids. -/
def mkOrder (id code : Int) (msgs : List String) (legs : List Int) : OrderVerificationResponse :=
  { OrderStrategy :=
      { OrderId := id
        OrderMessages := msgs.map fun m => { Message := m }
        OrderReturnCode := code
        OrderLegs := legs.map fun i => { SchwabSecurityId := i } } }

/-- A refused token refresh. -/
def refused : Except String Response :=
  .ok { StatusCode := 401, Body := "" }

/-- An account with an id, an account value and position groups. -/
def mkAccount (id : String) (value : Nat) (groups : List GroupedPosition) : AccountV2 :=
  { AccountID := id
    Totals := { MarketValue := { bits := 0 }, CashInvestments := { bits := 0 },
                AccountValue := { bits := value }, CostBasis := { bits := 0 } }
    GroupedPositions := groups }

/-- A client with the given headers and account ids that has sent nothing
yet. -/
def worldOf (headers : Map String String) (ids : List String) : World :=
  { client := { NewClient false with Headers := headers, AccountIDs := ids }, sent := [] }

/-- A run of the browser in which every step succeeds, the header channel
delivers the given headers and the browser holds the given cookies for each
URL. -/
def smoothBrowser (captured : Map String String) (cookies : List (String × String)) :
    Browser :=
  { generateCode := fun _ => .ok "000000"
    run := none, launch := none, newContext := none, newPage := none, route := none
    goto := none, waitForLoginFrame := none, selectOption := none
    fillLoginID := fun _ => none, pressTab := none, fillPassword := fun _ => none
    pressEnter := none, reload := none
    captured := some captured
    waitForURL := none, waitForSymbol := none, reloadTrade := none
    waitForSymbolAgain := none
    cookies := fun _ => .ok cookies }

/-! ## Theorems -/

/-- Reading the key just assigned gives the assigned value. -/
theorem Map.get_set_same {κ α : Type} [DecidableEq κ] (m : Map κ α) (k : κ) (x : α) :
    Map.get (Map.set m k x) k = some x := by
  induction m with
  | nil => simp [Map.set, Map.get]
  | cons a m ih =>
    obtain ⟨k0, v0⟩ := a
    by_cases h : k0 = k
    · simp [Map.set, Map.get, h]
    · simp [Map.set, Map.get, h, ih]

/-- Assigning one key does not change what another key holds. -/
theorem Map.get_set_ne {κ α : Type} [DecidableEq κ] (m : Map κ α) (k q : κ) (x : α)
    (hq : k ≠ q) : Map.get (Map.set m k x) q = Map.get m q := by
  induction m with
  | nil => simp [Map.set, Map.get, hq]
  | cons a m ih =>
    obtain ⟨k0, v0⟩ := a
    by_cases h : k0 = k
    · subst h; simp [Map.set, Map.get, hq]
    · by_cases h2 : k0 = q
      · subst h2; simp [Map.set, Map.get, h]
      · simp [Map.set, Map.get, h, h2, ih]

/-- A scalar has nothing under a non-empty path. -/
theorem Val.get_scalar (s : Val) (hs : s.isScalar = true) (k : Key) (p : List Key) :
    s.get (k :: p) = none := by
  cases s <;> simp [Val.isScalar] at hs <;> simp [Val.get]

/-- Assigning under a non-empty path of a scalar leaves it as it is. -/
theorem Val.set_scalar (s : Val) (hs : s.isScalar = true) (k : Key) (p : List Key) (x : Val) :
    s.set (k :: p) x = s := by
  cases s <;> simp [Val.isScalar] at hs <;> simp [Val.set]

/-- Assigning under a non-empty path of an object gives an object. -/
theorem Val.set_obj_cons (m : List (String × Val)) (k : Key) (p : List Key) (x : Val) :
    ∃ m2, (Val.obj m).set (k :: p) x = .obj m2 := by
  cases k with
  | index i => exact ⟨m, by simp [Val.set]⟩
  | field k =>
    cases p with
    | nil => exact ⟨Map.set m k x, by simp [Val.set]⟩
    | cons k2 p =>
      cases h : Map.get m k with
      | none => exact ⟨m, by simp [Val.set, h]⟩
      | some c => exact ⟨Map.set m k (c.set (k2 :: p) x), by simp [Val.set, h]⟩

/-- Assigning under a non-empty path of a slice of objects gives such a
slice. -/
theorem Val.set_objs_cons (l : List (List (String × Val))) (k : Key) (p : List Key) (x : Val) :
    ∃ l2, (Val.objs l).set (k :: p) x = .objs l2 := by
  cases k with
  | field k => exact ⟨l, by simp [Val.set]⟩
  | index i =>
    cases h : l[i]? with
    | none => exact ⟨l, by simp [Val.set, h]⟩
    | some m =>
      cases h2 : (Val.obj m).set p x with
      | obj m2 => exact ⟨l.set i m2, by simp [Val.set, h, h2]⟩
      | str a => exact ⟨l, by simp [Val.set, h, h2]⟩
      | int a => exact ⟨l, by simp [Val.set, h, h2]⟩
      | bool a => exact ⟨l, by simp [Val.set, h, h2]⟩
      | objs a => exact ⟨l, by simp [Val.set, h, h2]⟩

/-- Frame property of path assignment: an assignment under the path `p`
neither changes, removes nor creates a scalar field at a path that does not
extend `p`. -/
theorem Val.get_set_scalar (s : Val) (hs : s.isScalar = true) :
    ∀ (q : List Key) (v : Val) (p : List Key) (x : Val), (∀ r, q ≠ p ++ r) →
      ((v.set p x).get q = some s ↔ v.get q = some s) := by
  intro q
  induction q with
  | nil =>
    intro v p x hp
    cases p with
    | nil => exact absurd rfl (hp [])
    | cons k p =>
      cases v with
      | str a => simp [Val.set]
      | int a => simp [Val.set]
      | bool a => simp [Val.set]
      | obj m =>
        obtain ⟨m2, h2⟩ := Val.set_obj_cons m k p x
        rw [h2]
        constructor <;> intro h <;> simp [Val.get] at h <;> subst h <;> simp [Val.isScalar] at hs
      | objs l =>
        obtain ⟨l2, h2⟩ := Val.set_objs_cons l k p x
        rw [h2]
        constructor <;> intro h <;> simp [Val.get] at h <;> subst h <;> simp [Val.isScalar] at hs
  | cons key q ih =>
    intro v p x hp
    cases p with
    | nil => exact absurd rfl (hp (key :: q))
    | cons kp p =>
      cases v with
      | str a => simp [Val.set]
      | int a => simp [Val.set]
      | bool a => simp [Val.set]
      | obj m =>
        cases kp with
        | index i => simp [Val.set]
        | field k =>
          cases key with
          | index iq =>
            obtain ⟨m2, h2⟩ := Val.set_obj_cons m (.field k) p x
            rw [h2]
            simp [Val.get]
          | field kq =>
            by_cases hk : k = kq
            · subst hk
              have hp2 : ∀ r, q ≠ p ++ r := fun r hr => hp r (by simp [hr])
              cases p with
              | nil => exact absurd rfl (hp2 q)
              | cons k2 p =>
                cases hm : Map.get m k with
                | none => simp [Val.set, hm]
                | some c =>
                  simp only [Val.set, hm, Val.get, Map.get_set_same]
                  exact ih c (k2 :: p) x hp2
            · cases p with
              | nil => simp [Val.set, Val.get, Map.get_set_ne _ _ _ _ hk]
              | cons k2 p =>
                cases hm : Map.get m k with
                | none => simp [Val.set, hm]
                | some c => simp [Val.set, hm, Val.get, Map.get_set_ne _ _ _ _ hk]
      | objs l =>
        cases kp with
        | field k => simp [Val.set]
        | index i =>
          cases key with
          | field kq =>
            obtain ⟨l2, h2⟩ := Val.set_objs_cons l (.index i) p x
            rw [h2]
            simp [Val.get]
          | index iq =>
            cases hl : l[i]? with
            | none => simp [Val.set, hl]
            | some mm =>
              by_cases hi : i = iq
              · subst hi
                have hp2 : ∀ r, q ≠ p ++ r := fun r hr => hp r (by simp [hr])
                have hih := ih (.obj mm) p x hp2
                have hlt : i < l.length := by
                  rcases Nat.lt_or_ge i l.length with h | h
                  · exact h
                  · rw [List.getElem?_eq_none h] at hl; cases hl
                cases h2 : (Val.obj mm).set p x with
                | obj m2 =>
                  rw [h2] at hih
                  simp only [Val.set, hl, h2, Val.get, List.getElem?_set_self hlt]
                  exact hih
                | str a => simp [Val.set, hl, h2]
                | int a => simp [Val.set, hl, h2]
                | bool a => simp [Val.set, hl, h2]
                | objs a => simp [Val.set, hl, h2]
              · cases h2 : (Val.obj mm).set p x with
                | obj m2 => simp [Val.set, hl, h2, Val.get, List.getElem?_set_ne hi]
                | str a => simp [Val.set, hl, h2]
                | int a => simp [Val.set, hl, h2]
                | bool a => simp [Val.set, hl, h2]
                | objs a => simp [Val.set, hl, h2]

/-- Every branch of `UpdateToken` hands exactly its one request to the
transport. -/
theorem UpdateToken_sent (env : Env) (w : World) (t : String) :
    (UpdateToken env w t).2.sent = w.sent ++ [tokenRequest w.client t] := by
  simp only [UpdateToken, World.send]
  repeat' split
  all_goals rfl

/-- A token refresh is a GET, never a POST to the order endpoint. -/
theorem orderPosts_tokenRequest (c : Client) (t : String) (l : List Request) :
    orderPosts (l ++ [tokenRequest c t]) = orderPosts l := by
  simp [orderPosts, tokenRequest]

/-- A POST to the order endpoint is counted. -/
theorem orderPosts_orderRequest (c : Client) (b : Val) (l : List Request) :
    orderPosts (l ++ [orderRequest c b]) = orderPosts l ++ [orderRequest c b] := by
  simp [orderPosts, orderRequest]

/-- The requests handed to the transport up to and including the
verification POST. -/
theorem verified_sent (env : Env) (w : World) (ticker side : String) (qty : Float64)
    (accountId : String) :
    (verified env w ticker side qty accountId).sent =
      w.sent ++ [tokenRequest w.client "update", verifyRequest env w ticker side qty accountId] := by
  simp [verified, World.send, tradeStart, UpdateToken_sent]

/-- With a valid side, a call whose verification POST is answered runs the
verification phase of `Trade`. -/
theorem Trade_valid_side (env : Env) (w : World) (ticker side : String) (qty : Float64)
    (accountId : String) (dryRun : Bool) (hside : side = "Buy" ∨ side = "Sell")
    (resp : Response)
    (hresp : verifyAnswer env w ticker side qty accountId = .ok resp) :
    Trade env w ticker side qty accountId dryRun =
      if resp.StatusCode ≠ 200 then
        ({ messages := some [resp.Body], success := false, err := none },
          verified env w ticker side qty accountId)
      else
        match env.decodeOrder resp.Body with
        | (_, some e) =>
          ({ messages := none, success := false, err := some e },
            verified env w ticker side qty accountId)
        | (verifyResp, none) =>
          if ¬ validCodes verifyResp.OrderStrategy.OrderReturnCode then
            ({ messages := some (orderMessages verifyResp), success := false, err := none },
              verified env w ticker side qty accountId)
          else if dryRun then
            ({ messages := some (orderMessages verifyResp), success := true, err := none },
              verified env w ticker side qty accountId)
          else
            match execAnswer env w ticker side qty accountId verifyResp with
            | .error e =>
              ({ messages := none, success := false, err := some e },
                (execStart env w ticker side qty accountId).send
                  (execRequest env w ticker side qty accountId verifyResp))
            | .ok respExec =>
              ({ messages := some (orderMessages (env.decodeOrder respExec.Body).1),
                 success := validCodes (env.decodeOrder respExec.Body).1.OrderStrategy.OrderReturnCode,
                 err := none },
                (execStart env w ticker side qty accountId).send
                  (execRequest env w ticker side qty accountId verifyResp)) := by
  have hv : ¬ (side ≠ "Buy" ∧ side ≠ "Sell") := by
    rcases hside with h | h <;> simp [h]
  unfold verifyAnswer verifyRequest tradeStart buySellCode at hresp
  unfold Trade
  rw [if_neg hv]
  simp only [hresp]
  by_cases hs : resp.StatusCode = 200
  · simp only [hs, ne_eq, not_true_eq_false, if_false]
    rcases hd : env.decodeOrder resp.Body with ⟨vr, e⟩
    cases e with
    | some e => rfl
    | none =>
      simp only
      by_cases hc : validCodes vr.OrderStrategy.OrderReturnCode = true
      · simp only [hc, not_true_eq_false, if_false]
        cases dryRun with
        | true => rfl
        | false =>
          simp only [Bool.false_eq_true, if_false]
          unfold execAnswer execRequest execStart verified verifyRequest tradeStart buySellCode
          cases hx : env.Do _ _ with
          | error e => rfl
          | ok respExec =>
            simp only
            cases hcx : validCodes (env.decodeOrder respExec.Body).1.OrderStrategy.OrderReturnCode <;> simp
      · simp only [hc, not_false_eq_true, if_true]
        rfl
  · simp only [hs, ne_eq, not_false_eq_true, if_true]
    rfl

/-- C1: for every side other than "Buy" and "Sell", whatever the other
arguments and the client state, `Trade` returns nil messages, success=false
and the error "side must be 'Buy' or 'Sell'", and the state after the call
is the state before it: no request has been handed to the transport and the
client is unchanged. -/
theorem Trade_invalid_side (env : Env) (w : World) (ticker side : String) (qty : Float64)
    (accountId : String) (dryRun : Bool) (hBuy : side ≠ "Buy") (hSell : side ≠ "Sell") :
    Trade env w ticker side qty accountId dryRun =
      ({ messages := none, success := false,
         err := some "side must be \x27Buy\x27 or \x27Sell\x27" }, w) := by
  unfold Trade
  rw [if_pos ⟨hBuy, hSell⟩]

/-- The empty side is rejected without any network activity. -/
theorem Trade_invalid_side_witness :
    Trade (scriptEnv [] [] []) freshWorld "AAPL" "" { bits := 0 } "123" true =
      ({ messages := none, success := false,
         err := some "side must be \x27Buy\x27 or \x27Sell\x27" }, freshWorld) :=
  Trade_invalid_side _ _ _ _ _ _ _ (by decide) (by decide)

/-- The acceptance test on return codes holds for 0 and 10 only. -/
theorem validCodes_iff (c : Int) : validCodes c = true ↔ c = 0 ∨ c = 10 := by
  simp [validCodes]

/-- The requests handed to the transport up to and including the execution
POST. -/
theorem execStart_send_sent (env : Env) (w : World) (ticker side : String) (qty : Float64)
    (accountId : String) (vr : OrderVerificationResponse) :
    ((execStart env w ticker side qty accountId).send
        (execRequest env w ticker side qty accountId vr)).sent =
      w.sent ++ [tokenRequest w.client "update", verifyRequest env w ticker side qty accountId,
        tokenRequest (verified env w ticker side qty accountId).client "update",
        execRequest env w ticker side qty accountId vr] := by
  simp [execStart, World.send, UpdateToken_sent, verified_sent]

/-- C2: with a valid side and a 200 verification response that decodes with
return code c: when c is neither 0 nor 10 (negative codes included) `Trade`
returns the response's order messages in response order, success=false and
a nil error, having handed to the transport its refresh and the verification
POST only; when c is 0 or 10 the verification is accepted: a dry run returns
success=true, and otherwise the execution POST is handed to the transport. -/
theorem Trade_verification_return_code (env : Env) (w : World) (ticker side : String)
    (qty : Float64) (accountId : String) (dryRun : Bool) (body : String)
    (vr : OrderVerificationResponse) (hside : side = "Buy" ∨ side = "Sell")
    (hresp : verifyAnswer env w ticker side qty accountId =
      .ok { StatusCode := 200, Body := body })
    (hdec : env.decodeOrder body = (vr, none)) :
    ((vr.OrderStrategy.OrderReturnCode ≠ 0 ∧ vr.OrderStrategy.OrderReturnCode ≠ 10) →
      (Trade env w ticker side qty accountId dryRun).1 =
          { messages := some (vr.OrderStrategy.OrderMessages.map fun m => m.Message),
            success := false, err := none } ∧
        (Trade env w ticker side qty accountId dryRun).2.sent =
          w.sent ++ [tokenRequest w.client "update",
            verifyRequest env w ticker side qty accountId]) ∧
    ((vr.OrderStrategy.OrderReturnCode = 0 ∨ vr.OrderStrategy.OrderReturnCode = 10) →
      (dryRun = true →
        (Trade env w ticker side qty accountId dryRun).1 =
          { messages := some (vr.OrderStrategy.OrderMessages.map fun m => m.Message),
            success := true, err := none }) ∧
      (dryRun = false →
        (Trade env w ticker side qty accountId dryRun).2.sent =
          w.sent ++ [tokenRequest w.client "update",
            verifyRequest env w ticker side qty accountId,
            tokenRequest (verified env w ticker side qty accountId).client "update",
            execRequest env w ticker side qty accountId vr])) := by
  rw [Trade_valid_side env w ticker side qty accountId dryRun hside _ hresp]
  simp only [ne_eq, not_true_eq_false, if_false, hdec]
  refine ⟨fun hc => ?_, fun hc => ⟨fun hd => ?_, fun hd => ?_⟩⟩
  · have hn : validCodes vr.OrderStrategy.OrderReturnCode = false := by
      rw [← Bool.not_eq_true, validCodes_iff]; tauto
    simp [hn, verified_sent, orderMessages]
  · have hy : validCodes vr.OrderStrategy.OrderReturnCode = true := (validCodes_iff _).2 hc
    simp [hy, hd, orderMessages]
  · have hy : validCodes vr.OrderStrategy.OrderReturnCode = true := (validCodes_iff _).2 hc
    simp only [hy, not_true_eq_false, if_false, hd, Bool.false_eq_true]
    cases execAnswer env w ticker side qty accountId vr <;> exact execStart_send_sent _ _ _ _ _ _ _

/-- A verification answered with return code -3 and two messages is
rejected with these messages, after a refresh and one POST. -/
theorem Trade_verification_return_code_witness :
    (Trade (scriptEnv [refused, .ok { StatusCode := 200, Body := "V" }]
        [("V", mkOrder 7 (-3) ["no funds", "rejected"] [9])] []) freshWorld
        "AAPL" "Buy" { bits := 0 } "123" false).1 =
      { messages := some ["no funds", "rejected"], success := false, err := none } :=
  ((Trade_verification_return_code
      (scriptEnv [refused, .ok { StatusCode := 200, Body := "V" }]
        [("V", mkOrder 7 (-3) ["no funds", "rejected"] [9])] [])
      freshWorld "AAPL" "Buy" { bits := 0 } "123" false "V"
      (mkOrder 7 (-3) ["no funds", "rejected"] [9]) (Or.inl rfl) rfl rfl).1
    ⟨by decide, by decide⟩).1

/-- C3: with a valid side, dryRun=true and a 200 verification response that
decodes with return code 0 or 10, `Trade` returns the verification messages,
success=true and a nil error; the requests of the call are its refresh and
the verification POST, so the order endpoint has received exactly one POST,
whose body carries OrderProcessingControl=1. -/
theorem Trade_dry_run (env : Env) (w : World) (ticker side : String)
    (qty : Float64) (accountId : String) (body : String)
    (vr : OrderVerificationResponse) (hside : side = "Buy" ∨ side = "Sell")
    (hresp : verifyAnswer env w ticker side qty accountId =
      .ok { StatusCode := 200, Body := body })
    (hdec : env.decodeOrder body = (vr, none))
    (hcode : vr.OrderStrategy.OrderReturnCode = 0 ∨ vr.OrderStrategy.OrderReturnCode = 10) :
    (Trade env w ticker side qty accountId true).1 =
        { messages := some (vr.OrderStrategy.OrderMessages.map fun m => m.Message),
          success := true, err := none } ∧
      (Trade env w ticker side qty accountId true).2.sent =
        w.sent ++ [tokenRequest w.client "update",
          verifyRequest env w ticker side qty accountId] ∧
      orderPosts (Trade env w ticker side qty accountId true).2.sent =
        orderPosts w.sent ++ [verifyRequest env w ticker side qty accountId] ∧
      ((verifyRequest env w ticker side qty accountId).body.bind fun b =>
        b.get [.field "OrderProcessingControl"]) = some (.int 1) := by
  have hy : validCodes vr.OrderStrategy.OrderReturnCode = true := (validCodes_iff _).2 hcode
  rw [Trade_valid_side env w ticker side qty accountId true hside _ hresp]
  simp only [ne_eq, not_true_eq_false, if_false, hdec, hy, if_true, verified_sent]
  refine ⟨by trivial, by trivial, ?_, by trivial⟩
  have h := orderPosts_orderRequest (tradeStart env w).client
    (verificationBody env ticker (buySellCode side) qty accountId)
    (w.sent ++ [tokenRequest w.client "update"])
  rw [orderPosts_tokenRequest] at h
  simpa [verifyRequest] using h

/-- A dry run accepted with the warning code 10 stops after one POST. -/
theorem Trade_dry_run_witness :
    (Trade (scriptEnv [refused, .ok { StatusCode := 200, Body := "V" }]
        [("V", mkOrder 555 10 ["OK"] [9])] []) freshWorld
        "AAPL" "Sell" { bits := 0 } "123" true).1 =
      { messages := some ["OK"], success := true, err := none } :=
  (Trade_dry_run
      (scriptEnv [refused, .ok { StatusCode := 200, Body := "V" }]
        [("V", mkOrder 555 10 ["OK"] [9])] [])
      freshWorld "AAPL" "Sell" { bits := 0 } "123" "V"
      (mkOrder 555 10 ["OK"] [9]) (Or.inr rfl) rfl rfl (Or.inr rfl)).1

/-- C4: with a valid side, dryRun=false and an accepted verification,
whenever the transport answers the execution POST, `Trade` returns a nil
error, success=true exactly when the return code decoded from the execution
response is 0 or 10, and the order messages decoded from the execution
response, in response order; the verification messages do not appear. -/
theorem Trade_execution_outcome (env : Env) (w : World) (ticker side : String)
    (qty : Float64) (accountId : String) (body : String)
    (vr : OrderVerificationResponse) (respExec : Response)
    (hside : side = "Buy" ∨ side = "Sell")
    (hresp : verifyAnswer env w ticker side qty accountId =
      .ok { StatusCode := 200, Body := body })
    (hdec : env.decodeOrder body = (vr, none))
    (hcode : vr.OrderStrategy.OrderReturnCode = 0 ∨ vr.OrderStrategy.OrderReturnCode = 10)
    (hexec : execAnswer env w ticker side qty accountId vr = .ok respExec) :
    (Trade env w ticker side qty accountId false).1.err = none ∧
      ((Trade env w ticker side qty accountId false).1.success = true ↔
        ((env.decodeOrder respExec.Body).1.OrderStrategy.OrderReturnCode = 0 ∨
          (env.decodeOrder respExec.Body).1.OrderStrategy.OrderReturnCode = 10)) ∧
      (Trade env w ticker side qty accountId false).1.messages =
        some ((env.decodeOrder respExec.Body).1.OrderStrategy.OrderMessages.map
          fun m => m.Message) := by
  have hy : validCodes vr.OrderStrategy.OrderReturnCode = true := (validCodes_iff _).2 hcode
  rw [Trade_valid_side env w ticker side qty accountId false hside _ hresp]
  simp only [ne_eq, not_true_eq_false, if_false, hdec, hy, Bool.false_eq_true, hexec]
  exact ⟨by trivial, validCodes_iff _, by trivial⟩

/-- The scenario of the specification: verification accepted with code 0
and message "OK", execution answered with code 10 and message "placed". -/
theorem Trade_execution_outcome_witness :
    (Trade (scriptEnv [refused, .ok { StatusCode := 200, Body := "V" }, refused,
          .ok { StatusCode := 200, Body := "E" }]
        [("V", mkOrder 555 0 ["OK"] [9]), ("E", mkOrder 555 10 ["placed"] [])] [])
        freshWorld "AAPL" "Buy" { bits := 0 } "123" false).1.messages = some ["placed"] :=
  (Trade_execution_outcome
      (scriptEnv [refused, .ok { StatusCode := 200, Body := "V" }, refused,
          .ok { StatusCode := 200, Body := "E" }]
        [("V", mkOrder 555 0 ["OK"] [9]), ("E", mkOrder 555 10 ["placed"] [])] [])
      freshWorld "AAPL" "Buy" { bits := 0 } "123" "V" (mkOrder 555 0 ["OK"] [9])
      { StatusCode := 200, Body := "E" } (Or.inl rfl) rfl rfl (Or.inl rfl) rfl).2.2

/-- C6: with a valid side, when the verification POST is answered with a
status other than 200 and body b, `Trade` returns the one-element list [b],
success=false and a nil error, whatever dryRun is, and the requests of the
call are its refresh and the verification POST: no execution request. -/
theorem Trade_verification_non_200 (env : Env) (w : World) (ticker side : String)
    (qty : Float64) (accountId : String) (dryRun : Bool) (status : Int) (b : String)
    (hside : side = "Buy" ∨ side = "Sell") (hstatus : status ≠ 200)
    (hresp : verifyAnswer env w ticker side qty accountId =
      .ok { StatusCode := status, Body := b }) :
    (Trade env w ticker side qty accountId dryRun).1 =
        { messages := some [b], success := false, err := none } ∧
      (Trade env w ticker side qty accountId dryRun).2.sent =
        w.sent ++ [tokenRequest w.client "update",
          verifyRequest env w ticker side qty accountId] ∧
      orderPosts (Trade env w ticker side qty accountId dryRun).2.sent =
        orderPosts w.sent ++ [verifyRequest env w ticker side qty accountId] := by
  rw [Trade_valid_side env w ticker side qty accountId dryRun hside _ hresp]
  simp only [ne_eq, hstatus, not_false_eq_true, if_true, verified_sent]
  refine ⟨by trivial, by trivial, ?_⟩
  have h := orderPosts_orderRequest (tradeStart env w).client
    (verificationBody env ticker (buySellCode side) qty accountId)
    (w.sent ++ [tokenRequest w.client "update"])
  rw [orderPosts_tokenRequest] at h
  simpa [verifyRequest] using h

/-- A verification answered 503 with an HTML body gives that body back. -/
theorem Trade_verification_non_200_witness :
    (Trade (scriptEnv [refused, .ok { StatusCode := 503, Body := "<html>busy</html>" }] [] [])
        freshWorld "AAPL" "Buy" { bits := 0 } "123" false).1 =
      { messages := some ["<html>busy</html>"], success := false, err := none } :=
  (Trade_verification_non_200
      (scriptEnv [refused, .ok { StatusCode := 503, Body := "<html>busy</html>" }] [] [])
      freshWorld "AAPL" "Buy" { bits := 0 } "123" false 503 "<html>busy</html>"
      (Or.inl rfl) (by decide) rfl).1

/-- The body of the execution POST, written out: what the assignments of
`Trade` make of the verification body when the verification response
carries an order leg. -/
theorem executionBody_eq (env : Env) (ticker code : String) (qty : Float64) (accountId : String)
    (vr : OrderVerificationResponse) (leg : OrderLeg) (rest : List OrderLeg)
    (hl : vr.OrderStrategy.OrderLegs = leg :: rest) :
    executionBody (verificationBody env ticker code qty accountId) vr =
      executionLiteral env ticker code qty accountId vr.OrderStrategy.OrderId
        leg.SchwabSecurityId := by
  unfold executionBody
  rw [hl]
  rfl

/-- The assignments of `Trade` between the phases leave every scalar field
outside the assigned paths as it was, and create none. -/
theorem executionBody_frame (v : Val) (vr : OrderVerificationResponse) (leg : OrderLeg)
    (rest : List OrderLeg) (hl : vr.OrderStrategy.OrderLegs = leg :: rest)
    (q : List Key) (s : Val) (hs : s.isScalar = true)
    (hq : ∀ p ∈ changedPaths, ∀ r, q ≠ p ++ r) :
    (executionBody v vr).get q = some s ↔ v.get q = some s := by
  unfold executionBody
  rw [hl]
  have h1 := Val.get_set_scalar s hs q v itemIssueIdPath (.int leg.SchwabSecurityId)
    (hq _ (by simp [changedPaths]))
  have h2 := Val.get_set_scalar s hs q (v.set itemIssueIdPath (.int leg.SchwabSecurityId))
    [.field "UserContext", .field "CustomerId"] (.int 0) (hq _ (by simp [changedPaths]))
  have h3 := Val.get_set_scalar s hs q
    ((v.set itemIssueIdPath (.int leg.SchwabSecurityId)).set
      [.field "UserContext", .field "CustomerId"] (.int 0))
    [.field "OrderStrategy", .field "OrderId"] (.int vr.OrderStrategy.OrderId)
    (hq _ (by simp [changedPaths]))
  have h4 := Val.get_set_scalar s hs q
    (((v.set itemIssueIdPath (.int leg.SchwabSecurityId)).set
      [.field "UserContext", .field "CustomerId"] (.int 0)).set
      [.field "OrderStrategy", .field "OrderId"] (.int vr.OrderStrategy.OrderId))
    [.field "OrderProcessingControl"] (.int 2) (hq _ (by simp [changedPaths]))
  exact h4.trans (h3.trans (h2.trans h1))

/-- C5: with a valid side, dryRun=false and an accepted verification
response that carries order id o and, on its first order leg, security id s,
the execution POST is handed to the transport and its body is the
verification body with OrderStrategy.OrderId = o,
OrderStrategy.OrderLegs[0].Instrument.ItemIssueId = s and
UserContext.CustomerId = 0 added (none of the three is in the verification
body) and OrderProcessingControl changed from 1 to 2; every other scalar
field of either body is in the other one with the same value. -/
theorem Trade_execution_body (env : Env) (w : World) (ticker side : String)
    (qty : Float64) (accountId : String) (body : String)
    (vr : OrderVerificationResponse) (leg : OrderLeg) (rest : List OrderLeg)
    (hside : side = "Buy" ∨ side = "Sell")
    (hresp : verifyAnswer env w ticker side qty accountId =
      .ok { StatusCode := 200, Body := body })
    (hdec : env.decodeOrder body = (vr, none))
    (hcode : vr.OrderStrategy.OrderReturnCode = 0 ∨ vr.OrderStrategy.OrderReturnCode = 10)
    (hlegs : vr.OrderStrategy.OrderLegs = leg :: rest) :
    (Trade env w ticker side qty accountId false).2.sent =
        w.sent ++ [tokenRequest w.client "update",
          verifyRequest env w ticker side qty accountId,
          tokenRequest (verified env w ticker side qty accountId).client "update",
          execRequest env w ticker side qty accountId vr] ∧
      (verifyRequest env w ticker side qty accountId).body =
        some (verificationBody env ticker (buySellCode side) qty accountId) ∧
      (execRequest env w ticker side qty accountId vr).body =
        some (executionLiteral env ticker (buySellCode side) qty accountId
          vr.OrderStrategy.OrderId leg.SchwabSecurityId) ∧
      ((executionLiteral env ticker (buySellCode side) qty accountId
            vr.OrderStrategy.OrderId leg.SchwabSecurityId).get
          [.field "OrderStrategy", .field "OrderId"] = some (.int vr.OrderStrategy.OrderId) ∧
        (executionLiteral env ticker (buySellCode side) qty accountId
            vr.OrderStrategy.OrderId leg.SchwabSecurityId).get itemIssueIdPath =
          some (.int leg.SchwabSecurityId) ∧
        (executionLiteral env ticker (buySellCode side) qty accountId
            vr.OrderStrategy.OrderId leg.SchwabSecurityId).get
          [.field "UserContext", .field "CustomerId"] = some (.int 0) ∧
        (executionLiteral env ticker (buySellCode side) qty accountId
            vr.OrderStrategy.OrderId leg.SchwabSecurityId).get
          [.field "OrderProcessingControl"] = some (.int 2)) ∧
      ((verificationBody env ticker (buySellCode side) qty accountId).get
          [.field "OrderStrategy", .field "OrderId"] = none ∧
        (verificationBody env ticker (buySellCode side) qty accountId).get itemIssueIdPath =
          none ∧
        (verificationBody env ticker (buySellCode side) qty accountId).get
          [.field "UserContext", .field "CustomerId"] = none ∧
        (verificationBody env ticker (buySellCode side) qty accountId).get
          [.field "OrderProcessingControl"] = some (.int 1)) ∧
      ∀ (q : List Key) (s : Val), s.isScalar = true →
        (∀ p ∈ changedPaths, ∀ r, q ≠ p ++ r) →
        ((executionLiteral env ticker (buySellCode side) qty accountId
            vr.OrderStrategy.OrderId leg.SchwabSecurityId).get q = some s ↔
          (verificationBody env ticker (buySellCode side) qty accountId).get q = some s) := by
  have hy : validCodes vr.OrderStrategy.OrderReturnCode = true := (validCodes_iff _).2 hcode
  refine ⟨?_, rfl, ?_, ⟨rfl, rfl, rfl, rfl⟩, ⟨rfl, rfl, rfl, rfl⟩, ?_⟩
  · rw [Trade_valid_side env w ticker side qty accountId false hside _ hresp]
    simp only [ne_eq, not_true_eq_false, if_false, hdec, hy, Bool.false_eq_true]
    cases execAnswer env w ticker side qty accountId vr <;> exact execStart_send_sent _ _ _ _ _ _ _
  · simp only [execRequest, orderRequest]
    rw [executionBody_eq env ticker (buySellCode side) qty accountId vr leg rest hlegs]
  · intro q s hs hq
    rw [← executionBody_eq env ticker (buySellCode side) qty accountId vr leg rest hlegs]
    exact executionBody_frame _ vr leg rest hlegs q s hs hq

/-- The scenario of the specification: the verification response carries
order id 555 and security id 9; the execution body then holds OrderId=555,
ItemIssueId=9 and OrderProcessingControl=2. -/
theorem Trade_execution_body_witness :
    (executionLiteral (scriptEnv [refused, .ok { StatusCode := 200, Body := "V" }, refused,
            .ok { StatusCode := 200, Body := "E" }]
          [("V", mkOrder 555 0 ["OK"] [9]), ("E", mkOrder 555 10 ["placed"] [])] [])
        "AAPL" (buySellCode "Buy") { bits := 0 } "123" 555 9).get
          [.field "OrderStrategy", .field "OrderId"] = some (.int 555) ∧
      (executionLiteral (scriptEnv [refused, .ok { StatusCode := 200, Body := "V" }, refused,
            .ok { StatusCode := 200, Body := "E" }]
          [("V", mkOrder 555 0 ["OK"] [9]), ("E", mkOrder 555 10 ["placed"] [])] [])
        "AAPL" (buySellCode "Buy") { bits := 0 } "123" 555 9).get itemIssueIdPath =
          some (.int 9) ∧
      (executionLiteral (scriptEnv [refused, .ok { StatusCode := 200, Body := "V" }, refused,
            .ok { StatusCode := 200, Body := "E" }]
          [("V", mkOrder 555 0 ["OK"] [9]), ("E", mkOrder 555 10 ["placed"] [])] [])
        "AAPL" (buySellCode "Buy") { bits := 0 } "123" 555 9).get
          [.field "UserContext", .field "CustomerId"] = some (.int 0) ∧
      (executionLiteral (scriptEnv [refused, .ok { StatusCode := 200, Body := "V" }, refused,
            .ok { StatusCode := 200, Body := "E" }]
          [("V", mkOrder 555 0 ["OK"] [9]), ("E", mkOrder 555 10 ["placed"] [])] [])
        "AAPL" (buySellCode "Buy") { bits := 0 } "123" 555 9).get
          [.field "OrderProcessingControl"] = some (.int 2) :=
  (Trade_execution_body
      (scriptEnv [refused, .ok { StatusCode := 200, Body := "V" }, refused,
          .ok { StatusCode := 200, Body := "E" }]
        [("V", mkOrder 555 0 ["OK"] [9]), ("E", mkOrder 555 10 ["placed"] [])] [])
      freshWorld "AAPL" "Buy" { bits := 0 } "123" "V" (mkOrder 555 0 ["OK"] [9])
      { SchwabSecurityId := 9 } [] (Or.inl rfl) rfl rfl (Or.inl rfl) rfl).2.2.2.1

/-- A call of `GetAccountInfo` whose positions GET is answered. -/
theorem GetAccountInfo_answered (env : Env) (w : World) (resp : Response)
    (hresp : positionsAnswer env w = .ok resp) :
    (GetAccountInfo env w).1 =
      if resp.StatusCode ≠ 200 then
        (none, some (goBytes ("API request failed with status: " ++ toString resp.StatusCode ++
          ": ") ++ truncatedBody (goBytes resp.Body)))
      else
        match env.decodeAccounts resp.Body with
        | (_, some e) => (none, some (goBytes e))
        | (data, none) => (some (accountsById data.Accounts), none) := by
  unfold positionsAnswer positionsStart at hresp
  unfold GetAccountInfo
  simp only [hresp]
  by_cases hs : resp.StatusCode = 200
  · simp only [hs, ne_eq, not_true_eq_false, if_false]
    rcases env.decodeAccounts resp.Body with ⟨data, e⟩
    cases e <;> rfl
  · simp only [hs, ne_eq, not_false_eq_true, if_true]

/-- C10 (as amended): when the positions GET is answered with a status s
other than 200 and body b, `GetAccountInfo` returns a nil map and the error
whose text is "API request failed with status: s: " followed by the first
500 bytes of b and, when b is longer than 500 bytes, by three dots; this
excerpt of b is at most 500 bytes long and is b itself when b has at most
500 bytes.  The cut is the same on every byte sequence, text or not. -/
theorem GetAccountInfo_non_200 (env : Env) (w : World) (status : Int) (b : String)
    (hstatus : status ≠ 200)
    (hresp : positionsAnswer env w = .ok { StatusCode := status, Body := b }) :
    (GetAccountInfo env w).1 =
        (none, some (goBytes ("API request failed with status: " ++ toString status ++ ": ") ++
          (goBytes b).take 500 ++ (if (goBytes b).length > 500 then goBytes "..." else []))) ∧
      ((goBytes b).take 500).length ≤ 500 ∧
      ((goBytes b).length ≤ 500 → (goBytes b).take 500 = goBytes b) ∧
      ∀ msg : Bytes,
        truncatedBody msg = msg.take 500 ++ (if msg.length > 500 then goBytes "..." else []) := by
  refine ⟨?_, ?_, fun h => List.take_of_length_le h, ?_⟩
  rotate_left 2
  · intro msg
    unfold truncatedBody
    by_cases hl : msg.length > 500
    · simp only [hl, if_true]
    · simp only [hl, if_false, List.take_of_length_le (Nat.le_of_not_gt hl), List.append_nil]
  · rw [GetAccountInfo_answered env w _ hresp]
    simp only [ne_eq, hstatus, not_false_eq_true, if_true, truncatedBody]
    by_cases hl : (goBytes b).length > 500
    · simp only [hl, if_true, List.append_assoc]
    · have h2 : (goBytes b).length ≤ 500 := Nat.le_of_not_gt hl
      simp only [hl, if_false, List.take_of_length_le h2, List.append_nil]
  · simp [List.length_take]

/-- A refused positions request: status 403 with the six-byte body "denied",
which the error carries whole. -/
theorem GetAccountInfo_non_200_witness :
    (GetAccountInfo (scriptEnv [refused, .ok { StatusCode := 403, Body := "denied" }] [] [])
        freshWorld).1 =
      (none, some (goBytes ("API request failed with status: " ++ toString (403 : Int) ++ ": ") ++
        (goBytes "denied").take 500 ++
        (if (goBytes "denied").length > 500 then goBytes "..." else []))) :=
  (GetAccountInfo_non_200
      (scriptEnv [refused, .ok { StatusCode := 403, Body := "denied" }] [] [])
      freshWorld 403 "denied" (by decide) rfl).1

/-- C10 as stated fails: a body of 300 times the letter e with acute accent
(U+00E9, two bytes in UTF-8) has 300 characters and 600 bytes; the error
carries its first 500 bytes, that is 250 letters, followed by three dots,
and not the body itself. -/
theorem GetAccountInfo_non_200_counterexample :
    (String.mk (List.replicate 300 (Char.ofNat 233))).length = 300 ∧
      (GetAccountInfo
          (scriptEnv [refused,
            .ok { StatusCode := 500, Body := String.mk (List.replicate 300 (Char.ofNat 233)) }]
            [] [])
          freshWorld).1 =
        (none, some (goBytes "API request failed with status: 500: " ++
          goBytes (String.mk (List.replicate 250 (Char.ofNat 233))) ++ goBytes "...")) ∧
      goBytes (String.mk (List.replicate 250 (Char.ofNat 233))) ≠
        goBytes (String.mk (List.replicate 300 (Char.ofNat 233))) := by
  decide!

/-- Looking a key up after a run of assignments: the value of the last
assignment to that key, or what the map held before. -/
theorem Map.get_foldl_set {κ α β : Type} [DecidableEq κ] (key : β → κ) (val : β → α)
    (l : List β) (m0 : Map κ α) (k : κ) :
    Map.get (l.foldl (fun m a => Map.set m (key a) (val a)) m0) k =
      ((l.reverse.find? fun a => decide (key a = k)).map val).or (Map.get m0 k) := by
  induction l generalizing m0 with
  | nil => simp
  | cons a l ih =>
    rw [List.foldl_cons, ih, List.reverse_cons, List.find?_append]
    cases hfind : l.reverse.find? fun a => decide (key a = k) with
    | some a2 => simp
    | none =>
      by_cases hk : key a = k
      · simp [hk, Map.get_set_same]
      · simp [hk, Map.get_set_ne _ _ _ _ hk]

/-- Assigning a key the map does not hold appends the entry. -/
theorem Map.set_of_not_mem {κ α : Type} [DecidableEq κ] (m : Map κ α) (k : κ) (x : α)
    (hk : k ∉ m.map Prod.fst) : Map.set m k x = m ++ [(k, x)] := by
  induction m with
  | nil => rfl
  | cons a m ih =>
    obtain ⟨k0, v0⟩ := a
    simp only [List.map_cons, List.mem_cons, not_or] at hk
    have h0 : ¬ k0 = k := fun h => hk.1 h.symm
    simp [Map.set, h0, ih hk.2]

/-- Assigning pairwise distinct new keys appends the entries in order. -/
theorem Map.foldl_set_of_nodup {κ α β : Type} [DecidableEq κ] (key : β → κ) (val : β → α)
    (l : List β) (m0 : Map κ α)
    (hnd : (m0.map Prod.fst ++ l.map key).Nodup) :
    l.foldl (fun m a => Map.set m (key a) (val a)) m0 = m0 ++ l.map fun a => (key a, val a) := by
  induction l generalizing m0 with
  | nil => simp
  | cons a l ih =>
    have hnot : key a ∉ m0.map Prod.fst := by
      intro hmem
      rw [List.nodup_append] at hnd
      exact hnd.2.2 hmem (by simp)
    rw [List.foldl_cons, Map.set_of_not_mem m0 _ _ hnot, ih]
    · simp
    · simpa using hnd

/-- The keys of a map after an assignment. -/
theorem Map.set_keys {κ α : Type} [DecidableEq κ] (m : Map κ α) (k : κ) (x : α) :
    (Map.set m k x).map Prod.fst =
      if k ∈ m.map Prod.fst then m.map Prod.fst else m.map Prod.fst ++ [k] := by
  induction m with
  | nil => simp [Map.set]
  | cons a m ih =>
    obtain ⟨k0, v0⟩ := a
    by_cases h0 : k0 = k
    · subst h0; simp [Map.set]
    · have h1 : ¬ k = k0 := fun h => h0 h.symm
      by_cases hm : k ∈ m.map Prod.fst
      · simp only [Map.set, h0, if_false, List.map_cons, ih, hm, if_true, List.mem_cons, or_true]
      · simp only [Map.set, h0, if_false, List.map_cons, ih, hm, List.mem_cons, h1, or_self,
          List.cons_append]

/-- Assignment keeps the keys of a map pairwise distinct. -/
theorem Map.set_nodup {κ α : Type} [DecidableEq κ] (m : Map κ α) (k : κ) (x : α)
    (h : (m.map Prod.fst).Nodup) : ((Map.set m k x).map Prod.fst).Nodup := by
  rw [Map.set_keys]
  by_cases hm : k ∈ m.map Prod.fst
  · simpa [hm] using h
  · simp only [hm, if_false]
    rw [List.nodup_append]
    refine ⟨h, by simp, ?_⟩
    intro a ha hb
    simp at hb
    exact hm (hb ▸ ha)

/-- A run of assignments keeps the keys of a map pairwise distinct. -/
theorem Map.foldl_set_nodup {κ α β : Type} [DecidableEq κ] (key : β → κ) (val : β → α)
    (l : List β) (m0 : Map κ α) (h : (m0.map Prod.fst).Nodup) :
    ((l.foldl (fun m a => Map.set m (key a) (val a)) m0).map Prod.fst).Nodup := by
  induction l generalizing m0 with
  | nil => simpa using h
  | cons a l ih => exact ih _ (Map.set_nodup _ _ _ h)

/-- In a map with pairwise distinct keys, a lookup finds exactly the entries. -/
theorem Map.get_eq_some_iff {κ α : Type} [DecidableEq κ] (m : Map κ α)
    (h : (m.map Prod.fst).Nodup) (k : κ) (x : α) :
    Map.get m k = some x ↔ (k, x) ∈ m := by
  induction m with
  | nil => simp [Map.get]
  | cons a m ih =>
    obtain ⟨k0, v0⟩ := a
    simp only [List.map_cons, List.nodup_cons] at h
    by_cases h0 : k0 = k
    · subst h0
      simp only [Map.get, if_true, Option.some.injEq, List.mem_cons, Prod.mk.injEq, true_and]
      constructor
      · intro hx; exact Or.inl hx.symm
      · rintro (hx | hx)
        · exact hx.symm
        · exact absurd (List.mem_map_of_mem Prod.fst hx) h.1
    · have h1 : ¬ k = k0 := fun h => h0 h.symm
      simp [Map.get, h0, h1, ih h.2]

/-- The character of a decimal digit is an ASCII digit with that value. -/
theorem digitChar_toNat (k : Nat) (hk : k < 10) :
    (Nat.digitChar k).toNat - 48 = k ∧ 48 ≤ (Nat.digitChar k).toNat ∧
      (Nat.digitChar k).toNat ≤ 57 := by
  interval_cases k <;> decide

/-- Reading digits after a value read so far. -/
theorem foldl_digits (l : List Char) (a : Nat) :
    l.foldl (fun acc c => acc * 10 + (c.toNat - 48)) a = a * 10 ^ l.length + digitsValue l := by
  unfold digitsValue
  induction l generalizing a with
  | nil => simp
  | cons c l ih =>
    rw [List.foldl_cons, List.foldl_cons, ih, ih (0 * 10 + (c.toNat - 48))]
    simp only [List.length_cons, pow_succ]
    ring

/-- The digits written for `n` in front of `ds` read back as `n` followed by
`ds`. -/
theorem digitsValue_toDigitsCore (fuel n : Nat) (ds : List Char) (h : n < fuel) :
    digitsValue (Nat.toDigitsCore 10 fuel n ds) = n * 10 ^ ds.length + digitsValue ds := by
  induction fuel generalizing n ds with
  | zero => omega
  | succ fuel ih =>
    unfold Nat.toDigitsCore
    simp only
    have hd := (digitChar_toNat (n % 10) (Nat.mod_lt _ (by decide))).1
    by_cases h0 : n / 10 = 0
    · simp only [h0, if_true]
      have hn : n % 10 = n := Nat.mod_eq_of_lt (by omega)
      unfold digitsValue
      rw [List.foldl_cons, foldl_digits, hd, hn]
      simp [digitsValue]
    · simp only [h0, if_false]
      rw [ih (n / 10) _ (by omega)]
      have hv : digitsValue (Nat.digitChar (n % 10) :: ds) =
          (n % 10) * 10 ^ ds.length + digitsValue ds := by
        unfold digitsValue
        rw [List.foldl_cons, foldl_digits, hd]
        simp [digitsValue]
      rw [hv, List.length_cons, pow_succ]
      have hn := Nat.div_add_mod n 10
      calc n / 10 * (10 ^ ds.length * 10) + (n % 10 * 10 ^ ds.length + digitsValue ds)
          = (10 * (n / 10) + n % 10) * 10 ^ ds.length + digitsValue ds := by ring
        _ = n * 10 ^ ds.length + digitsValue ds := by rw [hn]

/-- Every character written for a number is an ASCII digit. -/
theorem toDigitsCore_digits (fuel n : Nat) (ds : List Char) (c : Char)
    (hc : c ∈ Nat.toDigitsCore 10 fuel n ds) :
    c ∈ ds ∨ (48 ≤ c.toNat ∧ c.toNat ≤ 57) := by
  induction fuel generalizing n ds with
  | zero => exact Or.inl (by simpa [Nat.toDigitsCore] using hc)
  | succ fuel ih =>
    unfold Nat.toDigitsCore at hc
    simp only at hc
    have hd := (digitChar_toNat (n % 10) (Nat.mod_lt _ (by decide))).2
    by_cases h0 : n / 10 = 0
    · simp only [h0, if_true, List.mem_cons] at hc
      rcases hc with hc | hc
      · exact Or.inr (hc ▸ hd)
      · exact Or.inl hc
    · simp only [h0, if_false] at hc
      rcases ih _ _ hc with h | h
      · simp only [List.mem_cons] at h
        rcases h with h | h
        · exact Or.inr (h ▸ hd)
        · exact Or.inl h
      · exact Or.inr h

/-- The decimal digits of `n` read back as `n`. -/
theorem digitsValue_toDigits (n : Nat) : digitsValue (Nat.toDigits 10 n) = n := by
  unfold Nat.toDigits
  rw [digitsValue_toDigitsCore _ _ _ (Nat.lt_succ_self n)]
  simp [digitsValue]

/-- The decimal digits of a number do not start with a minus sign. -/
theorem toDigits_ne_minus (n : Nat) (ds : List Char) : Nat.toDigits 10 n ≠ '-' :: ds := by
  intro h
  have hm : '-' ∈ Nat.toDigitsCore 10 (n + 1) n [] := by
    have : '-' ∈ Nat.toDigits 10 n := by rw [h]; simp
    exact this
  rcases toDigitsCore_digits _ _ _ _ hm with h1 | h1
  · simp at h1
  · exact absurd h1.1 (by decide)

/-- `strconv.FormatInt(_, 10)` gives different strings for different
integers. -/
theorem FormatInt_injective : Function.Injective FormatInt := by
  intro i j h
  have h := congrArg String.data h
  cases i with
  | ofNat n =>
    cases j with
    | ofNat m =>
      simp only [FormatInt] at h
      have := congrArg digitsValue h
      rw [digitsValue_toDigits, digitsValue_toDigits] at this
      rw [this]
    | negSucc m =>
      simp only [FormatInt] at h
      exact absurd h (toDigits_ne_minus _ _)
  | negSucc n =>
    cases j with
    | ofNat m =>
      simp only [FormatInt] at h
      exact absurd h.symm (toDigits_ne_minus _ _)
    | negSucc m =>
      simp only [FormatInt, List.cons.injEq, true_and] at h
      have := congrArg digitsValue h
      rw [digitsValue_toDigits, digitsValue_toDigits] at this
      have hnm : n = m := by omega
      rw [hnm]

/-- The account map is the decoded accounts filed one after the other under
their parsed ids. -/
theorem accountsById_get (accounts : List AccountV2) (k : Int) :
    Map.get (accountsById accounts) k =
      accounts.reverse.find? fun a => decide ((ParseInt a.AccountID).1 = k) := by
  unfold accountsById
  rw [Map.get_foldl_set (fun a : AccountV2 => (ParseInt a.AccountID).1) (fun a => a)]
  simp [Map.get]

/-- The keys of the account map are pairwise distinct. -/
theorem accountsById_nodup (accounts : List AccountV2) :
    ((accountsById accounts).map Prod.fst).Nodup :=
  Map.foldl_set_nodup (fun a : AccountV2 => (ParseInt a.AccountID).1) (fun a => a)
    accounts [] (by simp)

/-- C8 (as amended): when the positions GET is answered with status 200 and
a body that decodes, and the ids that `strconv.ParseInt` reads off the
accountId strings of the decoded accounts are pairwise distinct, the map
returned by `GetAccountInfo` holds exactly the accounts of the response, in
response order, each one as decoded under its parsed id; the accountId
"12345" parses to 12345. -/
theorem GetAccountInfo_accounts (env : Env) (w : World) (b : String)
    (data : AccountInfoV2Response)
    (hresp : positionsAnswer env w = .ok { StatusCode := 200, Body := b })
    (hdec : env.decodeAccounts b = (data, none))
    (hkeys : (data.Accounts.map fun a => (ParseInt a.AccountID).1).Nodup) :
    (GetAccountInfo env w).1 = (some (accountsById data.Accounts), none) ∧
      accountsById data.Accounts =
        data.Accounts.map (fun a => ((ParseInt a.AccountID).1, a)) ∧
      (∀ acc ∈ data.Accounts,
        Map.get (accountsById data.Accounts) (ParseInt acc.AccountID).1 = some acc) ∧
      ParseInt "12345" = (12345, none) := by
  have hmap : accountsById data.Accounts =
      data.Accounts.map (fun a => ((ParseInt a.AccountID).1, a)) := by
    unfold accountsById
    rw [Map.foldl_set_of_nodup (fun a : AccountV2 => (ParseInt a.AccountID).1) (fun a => a)
      data.Accounts [] (by simpa using hkeys)]
    simp
  refine ⟨?_, hmap, ?_, by decide⟩
  · rw [GetAccountInfo_answered env w _ hresp]
    simp only [ne_eq, not_true_eq_false, if_false, hdec]
  · intro acc hacc
    rw [Map.get_eq_some_iff _ (accountsById_nodup _), hmap]
    exact List.mem_map_of_mem _ hacc

/-- Two accounts with ids "12345" and "678" are both found. -/
theorem GetAccountInfo_accounts_witness :
    (GetAccountInfo
        (scriptEnv [refused, .ok { StatusCode := 200, Body := "P" }] []
          [("P", { Accounts := [mkAccount "12345" 100 [], mkAccount "678" 7 []] })])
        freshWorld).1 =
      (some (accountsById [mkAccount "12345" 100 [], mkAccount "678" 7 []]), none) :=
  (GetAccountInfo_accounts
      (scriptEnv [refused, .ok { StatusCode := 200, Body := "P" }] []
        [("P", { Accounts := [mkAccount "12345" 100 [], mkAccount "678" 7 []] })])
      freshWorld "P" { Accounts := [mkAccount "12345" 100 [], mkAccount "678" 7 []] }
      rfl rfl (by decide)).1

/-- C8 as stated fails: a response with the two accounts "12345" and
"012345", whose accountId strings differ, gives a map with the single key
12345 holding the second account; the first one is dropped. -/
theorem GetAccountInfo_distinct_strings_counterexample :
    (["12345", "012345"] : List String).Nodup ∧
      (GetAccountInfo
          (scriptEnv [refused, .ok { StatusCode := 200, Body := "P" }] []
            [("P", { Accounts := [mkAccount "12345" 100 [], mkAccount "012345" 7 []] })])
          freshWorld).1 = (some [(12345, mkAccount "012345" 7 [])], none) ∧
      mkAccount "12345" 100 [] ≠ mkAccount "012345" 7 [] := by
  refine ⟨by decide, ?_, by decide⟩
  rfl

/-- The inner loop of `GetAccountInfoV2` appends one row per holdings row,
in order. -/
theorem rows_foldl (rows : List HoldingRow) (positions : List PositionRow) :
    rows.foldl (fun positions row => positions ++ [positionRow row]) positions =
      positions ++ rows.map positionRow := by
  induction rows generalizing positions with
  | nil => simp
  | cons r rows ih => rw [List.foldl_cons, ih]; simp

/-- The two loops of `GetAccountInfoV2` append the rows group after group. -/
theorem groups_foldl (groups : List GroupedPosition) (positions : List PositionRow) :
    groups.foldl
        (fun positions group =>
          group.HoldingsRows.foldl (fun positions row => positions ++ [positionRow row])
            positions)
        positions =
      positions ++ groups.flatMap fun g => g.HoldingsRows.map positionRow := by
  induction groups generalizing positions with
  | nil => simp
  | cons g groups ih => rw [List.foldl_cons, ih, rows_foldl]; simp

/-- The legacy shape of an account, in closed form: each position is the
symbol, the market value and the quantity of its holdings row. -/
theorem compatOf_eq (acc : AccountV2) :
    compatOf acc =
      { AccountValue := acc.Totals.AccountValue
        Positions := acc.GroupedPositions.flatMap fun g =>
          g.HoldingsRows.map fun row =>
            ({ Symbol := row.Symbol.Symbol, MarketValue := row.MarketValue.Val,
               Quantity := row.Qty.Qty } : PositionRow) } := by
  have hrow : positionRow = fun row =>
      ({ Symbol := row.Symbol.Symbol, MarketValue := row.MarketValue.Val,
         Quantity := row.Qty.Qty } : PositionRow) := rfl
  unfold compatOf
  rw [groups_foldl, hrow]
  simp

/-- A map returned by `GetAccountInfo` without error is one built by its
filing loop. -/
theorem GetAccountInfo_map (env : Env) (w : World) (raw : Map Int AccountV2)
    (hraw : (GetAccountInfo env w).1 = (some raw, none)) :
    ∃ accounts, raw = accountsById accounts := by
  unfold GetAccountInfo at hraw
  simp only at hraw
  split at hraw
  · simp at hraw
  · split at hraw
    · simp at hraw
    · split at hraw
      · simp at hraw
      · rename_i data _
        simp only [Prod.mk.injEq, Option.some.injEq, and_true] at hraw
        exact ⟨data.Accounts, hraw.symm⟩

/-- Whatever its outcome, `GetAccountInfoV2` leaves the state in which its
call of `GetAccountInfo` left it. -/
theorem GetAccountInfoV2_state (env : Env) (w : World) :
    (GetAccountInfoV2 env w).2 = (GetAccountInfo env w).2 := by
  unfold GetAccountInfoV2
  rcases GetAccountInfo env w with ⟨⟨raw, e⟩, w1⟩
  cases e <;> rfl

/-- The legacy map of a map with pairwise distinct keys: entry by entry. -/
theorem compatById_eq (raw : Map Int AccountV2) (h : (raw.map Prod.fst).Nodup) :
    compatById raw = raw.map fun e => (FormatInt e.1, compatOf e.2) := by
  unfold compatById
  rw [Map.foldl_set_of_nodup (fun e : Int × AccountV2 => FormatInt e.1)
    (fun e => compatOf e.2) raw []]
  · simp
  · have := List.Nodup.map FormatInt_injective h
    simpa using this

/-- C9: for every account map that `GetAccountInfo` returns, `GetAccountInfoV2`
ends in the state `GetAccountInfo` ends in (no further request) and returns
one entry per account, keyed by the decimal string of its id (pairwise
distinct strings), whose account value is the account's totals.accountValue
and whose positions are the holdings rows of its groups, group after group
in row order, each mapped to its symbol (symbol.symbol), its market value
(marketValue.val) and its quantity (qty.qty); the number of positions is the
total number of holdings rows, and the entry found under a key does not
depend on the order in which the account map is traversed. -/
theorem GetAccountInfoV2_projection (env : Env) (w : World) (raw : Map Int AccountV2)
    (hraw : (GetAccountInfo env w).1 = (some raw, none)) :
    (GetAccountInfoV2 env w).2 = (GetAccountInfo env w).2 ∧
      (GetAccountInfoV2 env w).1 =
        (some (raw.map fun e =>
          (FormatInt e.1,
            { AccountValue := e.2.Totals.AccountValue
              Positions := e.2.GroupedPositions.flatMap fun g =>
                g.HoldingsRows.map fun row =>
                  ({ Symbol := row.Symbol.Symbol, MarketValue := row.MarketValue.Val,
                     Quantity := row.Qty.Qty } : PositionRow) })), none) ∧
      (raw.map fun e => FormatInt e.1).Nodup ∧
      (∀ id acc, (id, acc) ∈ raw →
        Map.get (compatById raw) (FormatInt id) =
            some { AccountValue := acc.Totals.AccountValue
                   Positions := acc.GroupedPositions.flatMap fun g =>
                     g.HoldingsRows.map fun row =>
                       ({ Symbol := row.Symbol.Symbol, MarketValue := row.MarketValue.Val,
                          Quantity := row.Qty.Qty } : PositionRow) } ∧
          (acc.GroupedPositions.flatMap fun g =>
              g.HoldingsRows.map fun row =>
                ({ Symbol := row.Symbol.Symbol, MarketValue := row.MarketValue.Val,
                   Quantity := row.Qty.Qty } : PositionRow)).length =
            (acc.GroupedPositions.map fun g => g.HoldingsRows.length).sum) ∧
      ∀ raw2 : Map Int AccountV2, raw2.Perm raw →
        ∀ k, Map.get (compatById raw2) k = Map.get (compatById raw) k := by
  obtain ⟨accounts, hacc⟩ := GetAccountInfo_map env w raw hraw
  have hnd : (raw.map Prod.fst).Nodup := hacc ▸ accountsById_nodup accounts
  have hkeys : (raw.map fun e => FormatInt e.1).Nodup := by
    have := List.Nodup.map FormatInt_injective hnd
    simpa using this
  have hout : ((compatById raw).map Prod.fst).Nodup := by
    rw [compatById_eq raw hnd]
    simpa using hkeys
  refine ⟨GetAccountInfoV2_state env w, ?_, hkeys, ?_, ?_⟩
  · have h2 : GetAccountInfoV2 env w =
        ((some (compatById raw), none), (GetAccountInfo env w).2) := by
      unfold GetAccountInfoV2
      rcases hg : GetAccountInfo env w with ⟨⟨r, e⟩, w1⟩
      rw [hg] at hraw
      simp only [Prod.mk.injEq] at hraw
      obtain ⟨hr, he⟩ := hraw
      subst hr he
      rfl
    rw [h2, compatById_eq raw hnd]
    simp [compatOf_eq]
  · intro id acc hmem
    refine ⟨?_, ?_⟩
    · rw [Map.get_eq_some_iff _ hout, compatById_eq raw hnd, ← compatOf_eq]
      exact List.mem_map_of_mem (fun e : Int × AccountV2 => (FormatInt e.1, compatOf e.2)) hmem
    · rw [List.length_flatMap]
      simp [Function.comp_def]
  · intro raw2 hperm k
    have hnd2 : (raw2.map Prod.fst).Nodup := (hperm.map Prod.fst).nodup_iff.2 hnd
    have hout2 : ((compatById raw2).map Prod.fst).Nodup := by
      rw [compatById_eq raw2 hnd2]
      have := List.Nodup.map FormatInt_injective hnd2
      simpa using this
    apply Option.ext
    intro c
    simp only [Option.mem_def]
    rw [Map.get_eq_some_iff _ hout2, Map.get_eq_some_iff _ hout, compatById_eq raw2 hnd2,
      compatById_eq raw hnd]
    exact (hperm.map _).mem_iff

/-- The account "12345" with account value 100 and two groups, of two and of
one holdings rows, gives the entry "12345" with account value 100 and three
positions in row order, each with the symbol, the market value and the
quantity of its row (and not its cost basis or its security id). -/
theorem GetAccountInfoV2_projection_witness :
    (GetAccountInfoV2
        (scriptEnv [refused, .ok { StatusCode := 200, Body := "P" }] []
          [("P", { Accounts := [
            { AccountID := "12345"
              Totals := { MarketValue := { bits := 90 }, CashInvestments := { bits := 10 },
                          AccountValue := { bits := 100 }, CostBasis := { bits := 80 } }
              GroupedPositions := [
                { GroupName := "Equity"
                  HoldingsRows := [
                    { Symbol := { Symbol := "AAPL", SSID := 11 }, Description := "Apple"
                      Qty := { Qty := { bits := 1 } }, CostBasis := { CostBasis := { bits := 5 } }
                      MarketValue := { Val := { bits := 10 } } },
                    { Symbol := { Symbol := "MSFT", SSID := 12 }, Description := "Microsoft"
                      Qty := { Qty := { bits := 2 } }, CostBasis := { CostBasis := { bits := 6 } }
                      MarketValue := { Val := { bits := 20 } } }] },
                { GroupName := "ETF"
                  HoldingsRows := [
                    { Symbol := { Symbol := "SPY", SSID := 13 }, Description := "S&P"
                      Qty := { Qty := { bits := 3 } }, CostBasis := { CostBasis := { bits := 7 } }
                      MarketValue := { Val := { bits := 30 } } }] }] }] })])
        freshWorld).1 =
      (some [("12345",
          { AccountValue := { bits := 100 }
            Positions := [
              { Symbol := "AAPL", MarketValue := { bits := 10 }, Quantity := { bits := 1 } },
              { Symbol := "MSFT", MarketValue := { bits := 20 }, Quantity := { bits := 2 } },
              { Symbol := "SPY", MarketValue := { bits := 30 }, Quantity := { bits := 3 } }] })],
        none) :=
  (GetAccountInfoV2_projection
      (scriptEnv [refused, .ok { StatusCode := 200, Body := "P" }] []
        [("P", { Accounts := [
          { AccountID := "12345"
            Totals := { MarketValue := { bits := 90 }, CashInvestments := { bits := 10 },
                        AccountValue := { bits := 100 }, CostBasis := { bits := 80 } }
            GroupedPositions := [
              { GroupName := "Equity"
                HoldingsRows := [
                  { Symbol := { Symbol := "AAPL", SSID := 11 }, Description := "Apple"
                    Qty := { Qty := { bits := 1 } }, CostBasis := { CostBasis := { bits := 5 } }
                    MarketValue := { Val := { bits := 10 } } },
                  { Symbol := { Symbol := "MSFT", SSID := 12 }, Description := "Microsoft"
                    Qty := { Qty := { bits := 2 } }, CostBasis := { CostBasis := { bits := 6 } }
                    MarketValue := { Val := { bits := 20 } } }] },
              { GroupName := "ETF"
                HoldingsRows := [
                  { Symbol := { Symbol := "SPY", SSID := 13 }, Description := "S&P"
                    Qty := { Qty := { bits := 3 } }, CostBasis := { CostBasis := { bits := 7 } }
                    MarketValue := { Val := { bits := 30 } } }] }] }] })])
      freshWorld
      [(12345,
        { AccountID := "12345"
          Totals := { MarketValue := { bits := 90 }, CashInvestments := { bits := 10 },
                      AccountValue := { bits := 100 }, CostBasis := { bits := 80 } }
          GroupedPositions := [
            { GroupName := "Equity"
              HoldingsRows := [
                { Symbol := { Symbol := "AAPL", SSID := 11 }, Description := "Apple"
                  Qty := { Qty := { bits := 1 } }, CostBasis := { CostBasis := { bits := 5 } }
                  MarketValue := { Val := { bits := 10 } } },
                { Symbol := { Symbol := "MSFT", SSID := 12 }, Description := "Microsoft"
                  Qty := { Qty := { bits := 2 } }, CostBasis := { CostBasis := { bits := 6 } }
                  MarketValue := { Val := { bits := 20 } } }] },
            { GroupName := "ETF"
              HoldingsRows := [
                { Symbol := { Symbol := "SPY", SSID := 13 }, Description := "S&P"
                  Qty := { Qty := { bits := 3 } }, CostBasis := { CostBasis := { bits := 7 } }
                  MarketValue := { Val := { bits := 30 } } }] }] })]
      rfl).2.1

/-- The limit written as a difference of powers of two. -/
theorem float64Limit_eq : float64Limit = 2 ^ 1024 - 2 ^ 970 := by
  norm_num [float64Limit]

/-- The generic map of an object holds, under a key, the value of the last
member with that name. -/
theorem unmarshalObject_get (members : List (String × JSON)) (key : String) :
    Map.get (unmarshalObject (.obj members)).1 key =
      (members.reverse.find? fun m => decide (m.1 = key)).map Prod.snd := by
  simp only [unmarshalObject]
  rw [Map.get_foldl_set (fun kv : String × JSON => kv.1) (fun kv => kv.2)]
  simp [Map.get]

/-- One step of the key loop reads what `stringMember` reads. -/
theorem pick_cons (members : List (String × JSON)) (key : String) (keys : List String) :
    flexString.pick (unmarshalObject (.obj members)).1 (key :: keys) =
      (stringMember members key).or (flexString.pick (unmarshalObject (.obj members)).1 keys) := by
  simp only [flexString.pick, unmarshalObject_get, stringMember]
  cases members.reverse.find? fun m => decide (m.1 = key) with
  | none => rfl
  | some m =>
    obtain ⟨k, v⟩ := m
    cases v <;> rfl

/-- C7 (as amended): the description decoder returns no error and the value
of the reference on every JSON value except an object that holds, at any
depth, a number outside the float64 range; on such an object it returns the
error of the generic decoding and leaves the value as it was.  (A name that
occurs several times in an object counts with its last value.)  On an empty
input it gives the empty string.  In particular "AAPL Inc" and
{"description":"AAPL Inc"} give "AAPL Inc", {"text":"x"} gives "x", an object
with both description and text gives the description, and {}, a number, an
array, a boolean and null give the empty string. -/
theorem flexString_UnmarshalJSON_ref (s : flexString) (j : JSON) :
    flexString.UnmarshalJSON s (some j) =
        (if decodeFails j = true then
          (s, some "json: cannot unmarshal number into Go value of type float64")
        else (flexStringRef j, none)) ∧
      flexString.UnmarshalJSON s none = ("", none) ∧
      flexStringRef (.str "AAPL Inc") = "AAPL Inc" ∧
      flexStringRef (.obj [("description", .str "AAPL Inc")]) = "AAPL Inc" ∧
      flexStringRef (.obj [("text", .str "x")]) = "x" ∧
      flexStringRef (.obj [("text", .str "x"), ("description", .str "d")]) = "d" ∧
      flexStringRef (.obj []) = "" ∧
      flexStringRef (.num { neg := false, mant := 7, exp := 0 }) = "" ∧
      flexStringRef (.arr [.str "a"]) = "" ∧
      flexStringRef (.bool true) = "" ∧
      flexStringRef .null = "" := by
  refine ⟨?_, rfl, by decide, by decide, by decide, by decide, by decide, rfl, rfl, rfl, rfl⟩
  cases j with
  | null => rfl
  | bool b => rfl
  | num n => rfl
  | str v => rfl
  | arr xs => rfl
  | obj members =>
    by_cases hr : JSON.rangeErrorMembers members = true
    · simp [flexString.UnmarshalJSON, unmarshalObject, decodeFails, hr]
    · have hpick : flexString.pick (unmarshalObject (.obj members)).1
          ["description", "text", "value"] =
          (stringMember members "description").or
            ((stringMember members "text").or (stringMember members "value")) := by
        rw [pick_cons, pick_cons, pick_cons]
        simp [flexString.pick]
      have hu : unmarshalObject (.obj members) = ((unmarshalObject (.obj members)).1, none) := by
        simp [unmarshalObject, hr]
      unfold flexString.UnmarshalJSON
      simp only [decodeFails, hr, if_false]
      rw [hu]
      simp only [hpick, flexStringRef]
      cases (stringMember members "description").or
          ((stringMember members "text").or (stringMember members "value")) <;> rfl

/-- C7 as stated fails: the object {"description":"AAPL Inc","shares":1e999}
is valid JSON whose description is a string, yet the decoder returns an
error and leaves the value empty, where the reference gives "AAPL Inc". -/
theorem flexString_UnmarshalJSON_counterexample :
    flexString.UnmarshalJSON ""
        (some (.obj [("description", .str "AAPL Inc"),
          ("shares", .num { neg := false, mant := 1, exp := 999 })])) =
        ("", some "json: cannot unmarshal number into Go value of type float64") ∧
      flexStringRef (.obj [("description", .str "AAPL Inc"),
          ("shares", .num { neg := false, mant := 1, exp := 999 })]) = "AAPL Inc" := by
  refine ⟨by decide!, by decide⟩

/-- A token refresh changes no header other than Authorization. -/
theorem UpdateToken_headers (env : Env) (w : World) (t k : String) (hk : k ≠ "Authorization") :
    Map.get (UpdateToken env w t).2.client.Headers k = Map.get w.client.Headers k := by
  simp only [UpdateToken, World.send]
  repeat' split
  all_goals first
    | rfl
    | exact Map.get_set_ne _ _ _ _ (fun h => hk h.symm)

/-- A token refresh changes neither the debug flag nor the account ids. -/
theorem UpdateToken_config (env : Env) (w : World) (t : String) :
    (UpdateToken env w t).2.client.Debug = w.client.Debug ∧
      (UpdateToken env w t).2.client.AccountIDs = w.client.AccountIDs := by
  simp only [UpdateToken, World.send]
  repeat' split
  all_goals exact ⟨rfl, rfl⟩

/-- The client that `Trade` leaves is the one it got, or the one left by its
first token refresh, or the one left by a second token refresh made on the
client left by the first. -/
theorem Trade_client (env : Env) (w : World) (ticker side : String) (qty : Float64)
    (accountId : String) (dryRun : Bool) :
    (Trade env w ticker side qty accountId dryRun).2.client = w.client ∨
      (Trade env w ticker side qty accountId dryRun).2.client = (tradeStart env w).client ∨
      ∃ w2 : World,
        (Trade env w ticker side qty accountId dryRun).2.client =
            (UpdateToken env w2 "update").2.client ∧
          w2.client = (tradeStart env w).client := by
  by_cases hv : side ≠ "Buy" ∧ side ≠ "Sell"
  · left
    unfold Trade
    rw [if_pos hv]
  · right
    unfold Trade
    rw [if_neg hv]
    simp only
    generalize (if side = "Sell" then "50" else "49") = code
    repeat' split
    all_goals first
      | exact Or.inl rfl
      | exact Or.inr ⟨_, rfl, rfl⟩

/-- `Trade` changes no header other than Authorization. -/
theorem Trade_headers (env : Env) (w : World) (ticker side : String) (qty : Float64)
    (accountId : String) (dryRun : Bool) (k : String) (hk : k ≠ "Authorization") :
    Map.get (Trade env w ticker side qty accountId dryRun).2.client.Headers k =
      Map.get w.client.Headers k := by
  rcases Trade_client env w ticker side qty accountId dryRun with h | h | ⟨w2, h, h2⟩
  · rw [h]
  · rw [h]; exact UpdateToken_headers env w "update" k hk
  · rw [h, UpdateToken_headers env w2 "update" k hk, h2]
    exact UpdateToken_headers env w "update" k hk

/-- The client that `GetAccountInfo` leaves is the one left by its token
refresh, with the account header set. -/
theorem GetAccountInfo_client (env : Env) (w : World) :
    (GetAccountInfo env w).2.client = withClientIds (UpdateToken env w "api").2.client := by
  unfold GetAccountInfo
  simp only
  repeat' split
  all_goals rfl

/-- Setting the account header changes no other header. -/
theorem withClientIds_headers (c : Client) (k : String) (hk : k ≠ "Schwab-Client-Ids") :
    Map.get (withClientIds c).Headers k = Map.get c.Headers k := by
  unfold withClientIds
  repeat' split
  all_goals first
    | rfl
    | exact Map.get_set_ne _ _ _ _ (fun h => hk h.symm)

/-- The account header after `GetAccountInfo` has set it: the value of the
schwab-client-account header when there is one, else the first configured
account id when there is one, else what it was. -/
theorem withClientIds_get (c : Client) :
    Map.get (withClientIds c).Headers "Schwab-Client-Ids" =
      match Map.get c.Headers "schwab-client-account" with
      | some acc => some acc
      | none =>
        match c.AccountIDs with
        | id :: _ => some id
        | [] => Map.get c.Headers "Schwab-Client-Ids" := by
  unfold withClientIds
  cases h : Map.get c.Headers "schwab-client-account" with
  | some acc => simp [Map.get_set_same]
  | none =>
    cases h2 : c.AccountIDs with
    | nil => simp
    | cons id ids => simp [Map.get_set_same]

/-- C12 (as amended): outside Login, for every client state and every
behaviour of the server, every header other than Authorization has the same
presence and value after `UpdateToken`, `Trade` or `TradeV2` as before the
call, and every header other than Authorization and Schwab-Client-Ids has
the same presence and value after `GetAccountInfo` or `GetAccountInfoV2` as
before the call. -/
theorem headers_outside_Login (env : Env) (w : World) (k : String)
    (hk : k ≠ "Authorization") (tokenType ticker side : String) (qty : Float64)
    (accountId : String) (dryRun : Bool) :
    Map.get (UpdateToken env w tokenType).2.client.Headers k = Map.get w.client.Headers k ∧
      Map.get (Trade env w ticker side qty accountId dryRun).2.client.Headers k =
        Map.get w.client.Headers k ∧
      Map.get (TradeV2 env w ticker side qty accountId dryRun).2.client.Headers k =
        Map.get w.client.Headers k ∧
      (k ≠ "Schwab-Client-Ids" →
        Map.get (GetAccountInfo env w).2.client.Headers k = Map.get w.client.Headers k ∧
          Map.get (GetAccountInfoV2 env w).2.client.Headers k = Map.get w.client.Headers k) := by
  have hget : k ≠ "Schwab-Client-Ids" →
      Map.get (GetAccountInfo env w).2.client.Headers k = Map.get w.client.Headers k := by
    intro hk2
    rw [GetAccountInfo_client, withClientIds_headers _ k hk2]
    exact UpdateToken_headers env w "api" k hk
  refine ⟨UpdateToken_headers env w tokenType k hk,
    Trade_headers env w ticker side qty accountId dryRun k hk,
    Trade_headers env w ticker side qty accountId dryRun k hk, fun hk2 => ⟨hget hk2, ?_⟩⟩
  rw [GetAccountInfoV2_state]
  exact hget hk2

/-- A refresh that succeeds with token "t" leaves the Cookie header of the
client as it was. -/
theorem headers_outside_Login_witness :
    Map.get (UpdateToken (scriptEnv [.ok { StatusCode := 200, Body := "t" }] [] [])
        (worldOf [("Cookie", "a=b")] []) "api").2.client.Headers "Cookie" =
      Map.get (worldOf [("Cookie", "a=b")] []).client.Headers "Cookie" :=
  (headers_outside_Login (scriptEnv [.ok { StatusCode := 200, Body := "t" }] [] [])
    (worldOf [("Cookie", "a=b")] []) "Cookie" (by decide) "api" "AAPL" "Buy" { bits := 0 }
    "123" true).1

/-- C12 as stated fails: on a client with no headers and the account id
"123" configured, `GetAccountInfo` adds the header Schwab-Client-Ids, which
stays in the credential bundle after the call (here the server does not even
answer). -/
theorem GetAccountInfo_header_counterexample :
    Map.get (worldOf [] ["123"]).client.Headers "Schwab-Client-Ids" = none ∧
      Map.get (GetAccountInfo (scriptEnv [] [] []) (worldOf [] ["123"])).2.client.Headers
        "Schwab-Client-Ids" = some "123" := by
  decide

/-- A key that a map does not hold is a key that is looked up in vain. -/
theorem Map.get_eq_none_iff {κ α : Type} [DecidableEq κ] (m : Map κ α) (k : κ) :
    Map.get m k = none ↔ k ∉ m.map Prod.fst := by
  induction m with
  | nil => simp [Map.get]
  | cons a m ih =>
    obtain ⟨k0, v0⟩ := a
    by_cases h0 : k0 = k
    · simp [Map.get, h0]
    · have h1 : ¬ k = k0 := fun h => h0 h.symm
      simp [Map.get, h0, h1, ih]

/-- When the names set on a request are pairwise distinct and none but
`name` itself has the canonical form `name`, the request carries under
`name` what was set under `name`. -/
theorem Request.headerValue_eq (req : Request) (name : String)
    (hname : CanonicalMIMEHeaderKey name = name)
    (hnd : (req.header.map Prod.fst).Nodup)
    (hc : ∀ k ∈ req.header.map Prod.fst, CanonicalMIMEHeaderKey k = name → k = name) :
    req.headerValue name = Map.get req.header name := by
  unfold Request.headerValue Request.headerMap
  rw [hname, Map.get_foldl_set (fun kv : String × String => CanonicalMIMEHeaderKey kv.1)
    (fun kv => kv.2)]
  simp only [Map.get, Option.or_none]
  cases hg : Map.get req.header name with
  | none =>
    rw [Map.get_eq_none_iff] at hg
    have hnone : (req.header.reverse.find? fun a =>
        decide (CanonicalMIMEHeaderKey a.1 = name)) = none := by
      rw [List.find?_eq_none]
      intro kv hkv hp
      simp only [decide_eq_true_eq] at hp
      have hmem : kv ∈ req.header := List.mem_reverse.1 hkv
      have hk := hc kv.1 (List.mem_map_of_mem Prod.fst hmem) hp
      exact hg (hk ▸ List.mem_map_of_mem Prod.fst hmem)
    rw [hnone]
    rfl
  | some v =>
    have hmem : (name, v) ∈ req.header := (Map.get_eq_some_iff _ hnd _ _).1 hg
    cases hf : (req.header.reverse.find? fun a =>
        decide (CanonicalMIMEHeaderKey a.1 = name)) with
    | none =>
      rw [List.find?_eq_none] at hf
      exact absurd (by simpa using hname) (hf (name, v) (List.mem_reverse.2 hmem))
    | some kv =>
      have hp := List.find?_some hf
      simp only [decide_eq_true_eq] at hp
      have hkv : kv ∈ req.header := List.mem_reverse.1 (List.mem_of_find?_eq_some hf)
      have hk := hc kv.1 (List.mem_map_of_mem Prod.fst hkv) hp
      have hkv2 : (name, kv.2) ∈ req.header := by
        have : kv = (name, kv.2) := by rw [← hk]
        rw [← this]; exact hkv
      have := (Map.get_eq_some_iff _ hnd _ _).2 hkv2
      rw [hg] at this
      simp only [Option.map_some']
      exact this.symm

/-- Assigning a name whose canonical form is not Schwab-Client-Ids, or the
name Schwab-Client-Ids itself, keeps a header map clean. -/
theorem cleanClientIds_set (h : Map String String) (k x : String) (hclean : cleanClientIds h)
    (hk : CanonicalMIMEHeaderKey k = "Schwab-Client-Ids" → k = "Schwab-Client-Ids") :
    cleanClientIds (Map.set h k x) := by
  refine ⟨Map.set_nodup h k x hclean.1, ?_⟩
  intro k2 hk2
  rw [Map.set_keys] at hk2
  by_cases hm : k ∈ h.map Prod.fst
  · rw [if_pos hm] at hk2
    exact hclean.2 k2 hk2
  · rw [if_neg hm, List.mem_append] at hk2
    rcases hk2 with h2 | h2
    · exact hclean.2 k2 h2
    · simp only [List.mem_singleton] at h2
      rw [h2]; exact hk

/-- A token refresh keeps the header map clean. -/
theorem UpdateToken_clean (env : Env) (w : World) (t : String)
    (hclean : cleanClientIds w.client.Headers) :
    cleanClientIds (UpdateToken env w t).2.client.Headers := by
  simp only [UpdateToken, World.send]
  repeat' split
  all_goals first
    | exact hclean
    | exact cleanClientIds_set _ _ _ hclean (by decide)

/-- Setting the account header keeps the header map clean. -/
theorem withClientIds_clean (c : Client) (hclean : cleanClientIds c.Headers) :
    cleanClientIds (withClientIds c).Headers := by
  unfold withClientIds
  repeat' split
  all_goals first
    | exact hclean
    | exact cleanClientIds_set _ _ _ hclean (fun _ => rfl)

/-- The requests that a call of `GetAccountInfo` hands to the transport: its
token refresh and the positions GET. -/
theorem GetAccountInfo_sent (env : Env) (w : World) :
    (GetAccountInfo env w).2.sent =
      w.sent ++ [tokenRequest w.client "api", positionsRequest (positionsStart env w).client] := by
  unfold GetAccountInfo positionsStart
  simp only [World.send]
  repeat' split
  all_goals simp [UpdateToken_sent]

/-- What the positions GET of `GetAccountInfo` carries under
Schwab-Client-Ids, when the header names of the client are pairwise distinct
and none of them but Schwab-Client-Ids itself has the canonical form
Schwab-Client-Ids: the value of the client header schwab-client-account
when there is one; else AccountIDs[0] when AccountIDs is non-empty; else
the Schwab-Client-Ids header the client already held. -/
theorem positionsRequest_client_ids (env : Env) (w : World)
    (hnd : (w.client.Headers.map Prod.fst).Nodup)
    (hcanon : ∀ k ∈ w.client.Headers.map Prod.fst,
      CanonicalMIMEHeaderKey k = "Schwab-Client-Ids" → k = "Schwab-Client-Ids") :
    (positionsRequest (positionsStart env w).client).headerValue "Schwab-Client-Ids" =
      match Map.get w.client.Headers "schwab-client-account" with
      | some acc => some acc
      | none =>
        match w.client.AccountIDs with
        | id :: _ => some id
        | [] => Map.get w.client.Headers "Schwab-Client-Ids" := by
  have hclean : cleanClientIds (positionsStart env w).client.Headers :=
    withClientIds_clean _ (UpdateToken_clean env w "api" ⟨hnd, hcanon⟩)
  rw [Request.headerValue_eq _ "Schwab-Client-Ids" (by decide) hclean.1 hclean.2]
  show Map.get (withClientIds (UpdateToken env w "api").2.client).Headers "Schwab-Client-Ids" = _
  rw [withClientIds_get, UpdateToken_headers env w "api" "schwab-client-account" (by decide),
    UpdateToken_headers env w "api" "Schwab-Client-Ids" (by decide),
    (UpdateToken_config env w "api").2]

/-- C13, the code at the failing input: on a client with the header
schwab-client-account: 999 and AccountIDs = ["123"], a call of
`GetAccountInfo` (the refresh refused, the positions GET answered with an
empty account list) hands two requests to the transport, and the last one,
the positions GET, carries Schwab-Client-Ids: 999 and not the first
configured account id 123, which the comment on `AccountIDs` in `client.go`
says is sent. -/
theorem GetAccountInfo_client_ids_precedence :
    (worldOf [("schwab-client-account", "999")] ["123"]).client.AccountIDs = ["123"] ∧
      (GetAccountInfo
          (scriptEnv [refused, .ok { StatusCode := 200, Body := "P" }] []
            [("P", { Accounts := [] })])
          (worldOf [("schwab-client-account", "999")] ["123"])).2.sent.length = 2 ∧
      ((GetAccountInfo
          (scriptEnv [refused, .ok { StatusCode := 200, Body := "P" }] []
            [("P", { Accounts := [] })])
          (worldOf [("schwab-client-account", "999")] ["123"])).2.sent.getLast?.map
        fun req => (req.method, req.url, req.headerValue "Schwab-Client-Ids")) =
        some ("GET", PositionsV2Url, some "999") := by
  decide

/-- The credentials of a new client agree: it has no Authorization header
and an empty bearer token. -/
theorem credentialsAgree_NewClient (debug : Bool) : credentialsAgree (NewClient debug) := by
  cases debug <;> decide

/-- A token refresh keeps the credentials in agreement, whatever its
outcome: on every error return the client is as it was, and on success both
fields are written. -/
theorem UpdateToken_agree (env : Env) (w : World) (t : String)
    (h : credentialsAgree w.client) : credentialsAgree (UpdateToken env w t).2.client := by
  simp only [UpdateToken, World.send]
  repeat' split
  all_goals first
    | exact h
    | simp [credentialsAgree, Map.get_set_same]

/-- A token refresh that is answered with status 200 and a body that decodes
to the token `token` returns no error and leaves both the bearer token and
the Authorization header equal to "Bearer " followed by the token. -/
theorem UpdateToken_success (env : Env) (w : World) (t body token : String)
    (hresp : env.Do w.sent (tokenRequest w.client t) = .ok { StatusCode := 200, Body := body })
    (hdec : env.decodeToken body = (token, none)) :
    (UpdateToken env w t).1 = none ∧
      (UpdateToken env w t).2.client.BearerToken = "Bearer " ++ token ∧
      Map.get (UpdateToken env w t).2.client.Headers "Authorization" =
        some ("Bearer " ++ token) := by
  simp [UpdateToken, hresp, hdec, Map.get_set_same]

/-- A token refresh that returns an error leaves the client as it was. -/
theorem UpdateToken_error (env : Env) (w : World) (t : String)
    (h : (UpdateToken env w t).1 ≠ none) : (UpdateToken env w t).2.client = w.client := by
  simp only [UpdateToken, World.send] at h ⊢
  repeat' split
  all_goals first
    | rfl
    | (exfalso; revert h; simp_all)

/-- A login that returns no error leaves the credentials in agreement. -/
theorem Login_success_agree (br : Browser) (w : World) (username password totpSecret : String)
    (h : (Login br w username password totpSecret).1 = none) :
    credentialsAgree (Login br w username password totpSecret).2.client := by
  unfold Login at h ⊢
  simp only at h ⊢
  repeat' split
  all_goals first
    | (exfalso; revert h; simp_all; done)
    | simp [credentialsAgree, Map.get_set_same, Map.get_set_ne]

/-- A login whose header channel delivers nothing leaves the state as it
was. -/
theorem Login_timeout (br : Browser) (w : World) (username password totpSecret : String)
    (h : br.captured = none) :
    (Login br w username password totpSecret).2 = w := by
  unfold Login
  simp only [h]
  repeat' split
  all_goals rfl

/-- The outcomes of a login: the client is as it was; or the call returns an
error after the header channel has delivered, and the client is as it was
but for the bearer token, which is the captured authorization header; or
the call returns no error. -/
theorem Login_client (br : Browser) (w : World) (username password totpSecret : String) :
    (Login br w username password totpSecret).2.client = w.client ∨
      (∃ capturedHeaders, br.captured = some capturedHeaders ∧
        (Login br w username password totpSecret).1 ≠ none ∧
        (Login br w username password totpSecret).2.client =
          { w.client with BearerToken := (Map.get capturedHeaders "authorization").getD "" }) ∨
      (Login br w username password totpSecret).1 = none := by
  unfold Login
  simp only
  repeat' split
  all_goals first
    | exact Or.inl rfl
    | exact Or.inr (Or.inr rfl)
    | exact Or.inr (Or.inl ⟨_, by assumption, by simp, rfl⟩)

/-- C11, the code at the failing input: on a new client, whose credentials
agree, a login in which the header channel delivers
authorization: Bearer abc and the wait for the trade URL then times out
returns the error "wait for trade URL: timeout" and leaves the bearer token
"Bearer abc" in a client without Authorization header: the credentials no
longer agree. -/
theorem Login_late_error_partial_credentials :
    credentialsAgree freshWorld.client ∧
      (Login { smoothBrowser [("authorization", "Bearer abc")] [("sid", "1")] with
          waitForURL := some "timeout" } freshWorld "user" "pw" "").1 =
        some "wait for trade URL: timeout" ∧
      (Login { smoothBrowser [("authorization", "Bearer abc")] [("sid", "1")] with
          waitForURL := some "timeout" } freshWorld "user" "pw" "").2.client.BearerToken =
        "Bearer abc" ∧
      Map.get (Login { smoothBrowser [("authorization", "Bearer abc")] [("sid", "1")] with
          waitForURL := some "timeout" } freshWorld "user" "pw" "").2.client.Headers
        "Authorization" = none ∧
      ¬ credentialsAgree (Login { smoothBrowser [("authorization", "Bearer abc")] [("sid", "1")]
          with waitForURL := some "timeout" } freshWorld "user" "pw" "").2.client := by
  decide

end Schwab
